import Mathlib

/-!
Shallow embedding and verification of the RooFitDriver evaluation engine
from src/roofit/roofitcore/src/RooFitDriver.cxx.

The engine evaluates a topologically sorted DAG of numeric nodes.  Each node
carries static data (its value servers, whether it is a RooRealVar parameter
leaf, a reducer node, CUDA capability) and a per-node `NodeInfo` record of
mutable flags (`fromDataset`, `isDirty`, `lastSetValCount`, `outputSize`,
pooled buffer, scheduler countdowns `remServers` and `remClients`,
`copyAfterEvaluation`).  The embedding mirrors:

  * `NodeInfo::computeInGPU` and `RooFitDriver::markGPUNodes` (device placement);
  * `logArchitectureInfo` and the CUDA availability checks of the constructor;
  * `RooFitDriver::setData` (buffer reset, span publication, size rebinding,
    CUDA dataset upload with its scalar-aliasing branch);
  * `RooFitDriver::getVal` in CPU mode (`processVariable`, `setClientsDirty`,
    `computeCPUNode`: the dirty-propagation fast path);
  * `RooFitDriver::getValHeterogeneous` / `assignToGPU` (the CUDA scheduler).

Kernels (`RooAbsReal::computeBatch`) are opaque callbacks; they are modelled by
a pure function `K` from a node index and the spans of its value servers to an
output span.  Machine pointers are replaced by value semantics: a published
span is the list of values the pointed-to buffer holds once the writing kernel
has completed, which is exactly when the engine allows the span to be read.
CUDA streams and events order device work; their only observable effect on the
scheduler state is when `CudaStream::isActive` flips to idle, which is modelled
by an external oracle.
-/

namespace RooFit

/-- Static data of one graph node: its name (the identity used as data-map
key), the topological indices of its value servers (`NodeInfo::serverInfos`),
and the flags the driver queries on the `RooAbsArg`: whether the
`dynamic_cast<RooRealVar const*>` succeeds (`isVariable`), whether the node is
a `RooAbsCategory`, `RooAbsArg::isReducerNode`, and
`RooAbsArg::canComputeBatchWithCuda`. -/
structure Node where
  name : String
  servers : List Nat
  isVariable : Bool
  isCategory : Bool
  isReducer : Bool
  cudaCapable : Bool
deriving DecidableEq

instance : Inhabited Node := ⟨⟨"", [], false, false, false, false⟩⟩

/-- The computation graph: the `_nodes` vector in topological order
(every server precedes its clients, the top node is last). -/
abbrev Graph := List Node

/-- The node at topological index `i`. -/
def nodeAt (g : Graph) (i : Nat) : Node := g.getD i default

/-- Mirror of `NodeInfo::clientInfos` of node `i`: all nodes that list `i` among their
value servers (built mutually with `serverInfos` in the constructor). -/
def clients (g : Graph) (i : Nat) : List Nat :=
  (List.range g.length).filter (fun j => i ∈ (nodeAt g j).servers)

/-- Well-formedness of the `_nodes` vector, as established by
`RooHelpers::getSortedComputationGraph`: the order is topological (every value
server of a node has a strictly smaller index) and the de-duplicated server
lists have no repeated entries. -/
def Wellformed (g : Graph) : Prop :=
  ∀ i < g.length, (∀ s ∈ (nodeAt g i).servers, s < i) ∧ (nodeAt g i).servers.Nodup

instance (g : Graph) : Decidable (Wellformed g) := by
  unfold Wellformed
  infer_instance

/-- Mutable per-node state of the driver: the `NodeInfo` fields that change
after construction, plus the two data maps `_dataMapCPU` / `_dataMapCUDA`
(node index to currently published span; `none` models a never-published
entry).  `hasBuffer` models ownership of the pooled `NodeInfo::buffer`
(`true` iff the `unique_ptr` is non-null); the scalar case writes into the
inline `scalarBuffer` and owns no pooled buffer. -/
structure EngineState where
  fromDataset : Nat → Bool
  isDirty : Nat → Bool
  lastSetValCount : Nat → Option Nat
  hasBuffer : Nat → Bool
  outputSize : Nat → Nat
  copyAfterEvaluation : Nat → Bool
  remServers : Nat → Int
  remClients : Nat → Int
  dmCPU : Nat → Option (List Int)
  dmCUDA : Nat → Option (List Int)

/-- A batch kernel: `computeBatch` of node `i`, reading the published spans of
the value servers of the node from a data map.  It is a pure function of those
spans (kernels are opaque deterministic callbacks per the collaborator
contract). -/
abbrev Kernel := Nat → List (Option (List Int)) → List Int

/-- The spans a kernel invocation for node `i` reads: the data-map entries of
the value servers of the node, in server order. -/
def inputSpans (g : Graph) (dm : Nat → Option (List Int)) (i : Nat) :
    List (Option (List Int)) :=
  ((nodeAt g i).servers).map dm

/-- Mirror of `NodeInfo::computeInGPU`:
`(absArg->isReducerNode() || !isScalar()) && absArg->canComputeBatchWithCuda()`,
where `isScalar` is `outputSize == 1`. -/
def computeInGPU (g : Graph) (sz : Nat → Nat) (i : Nat) : Bool :=
  ((nodeAt g i).isReducer || decide (sz i ≠ 1)) && (nodeAt g i).cudaCapable

/-- The flag value `RooFitDriver::markGPUNodes` computes for node `i`: scalar
nodes never need copying; a non-scalar node is flagged when the placement
of some client differs from its own (the loop with `break` is an existential
scan over `clientInfos`). -/
def markOneGPU (g : Graph) (sz : Nat → Nat) (i : Nat) : Bool :=
  decide (sz i ≠ 1) && (clients g i).any (fun j => computeInGPU g sz j != computeInGPU g sz i)

/-- Mirror of `RooFitDriver::markGPUNodes`: one pass over `_nodes` recomputing every
`copyAfterEvaluation` flag. -/
def markGPUNodes (g : Graph) (st : EngineState) : EngineState :=
  (List.range g.length).foldl
    (fun s i =>
      { s with copyAfterEvaluation := Function.update s.copyAfterEvaluation i (markOneGPU g s.outputSize i) })
    st

lemma markGPUNodes_fold_outputSize (g : Graph) (l : List Nat) (st : EngineState) :
    (l.foldl
      (fun s i =>
        { s with copyAfterEvaluation := Function.update s.copyAfterEvaluation i (markOneGPU g s.outputSize i) })
      st).outputSize = st.outputSize := by
  induction l generalizing st with
  | nil => rfl
  | cons a l ih => simpa using ih _

lemma markGPUNodes_fold_cae (g : Graph) (l : List Nat) (st : EngineState) (j : Nat) :
    (l.foldl
      (fun s i =>
        { s with copyAfterEvaluation := Function.update s.copyAfterEvaluation i (markOneGPU g s.outputSize i) })
      st).copyAfterEvaluation j =
      if j ∈ l then markOneGPU g st.outputSize j else st.copyAfterEvaluation j := by
  induction l generalizing st with
  | nil => simp
  | cons a l ih =>
    simp only [List.foldl_cons, ih, List.mem_cons]
    by_cases hj : j ∈ l
    · simp [hj]
    · by_cases haj : j = a
      · subst haj
        simp [hj, Function.update_same]
      · simp [hj, haj, Function.update_noteq haj]

lemma markGPUNodes_fold_dmCUDA (g : Graph) (l : List Nat) (st : EngineState) :
    (l.foldl
      (fun s i =>
        { s with copyAfterEvaluation := Function.update s.copyAfterEvaluation i (markOneGPU g s.outputSize i) })
      st).dmCUDA = st.dmCUDA := by
  induction l generalizing st with
  | nil => rfl
  | cons a l ih => simpa using ih _

lemma markGPUNodes_dmCUDA (g : Graph) (st : EngineState) :
    (markGPUNodes g st).dmCUDA = st.dmCUDA :=
  markGPUNodes_fold_dmCUDA g (List.range g.length) st

lemma markGPUNodes_cae (g : Graph) (st : EngineState) (j : Nat) :
    (markGPUNodes g st).copyAfterEvaluation j =
      if j < g.length then markOneGPU g st.outputSize j else st.copyAfterEvaluation j := by
  simpa [markGPUNodes, List.mem_range] using markGPUNodes_fold_cae g (List.range g.length) st j

/-- C4: after `markGPUNodes`, `copyAfterEvaluation` holds for a node exactly
when it is non-scalar and has a client whose device placement differs from its
own; and a node computes on device exactly when it is a reducer or non-scalar,
and its kernel declares CUDA capability. -/
theorem c4_placement_and_copy (g : Graph) (st : EngineState) (i : Nat) (hi : i < g.length) :
    (computeInGPU g st.outputSize i = true ↔
      ((nodeAt g i).isReducer = true ∨ st.outputSize i ≠ 1) ∧ (nodeAt g i).cudaCapable = true) ∧
    ((markGPUNodes g st).copyAfterEvaluation i = true ↔
      st.outputSize i ≠ 1 ∧
        ∃ j ∈ clients g i, computeInGPU g st.outputSize j ≠ computeInGPU g st.outputSize i) := by
  constructor
  · simp [computeInGPU]
  · rw [markGPUNodes_cae g st i]
    simp only [hi, if_pos]
    simp [markOneGPU, List.any_eq_true, bne_iff_ne]

/-- The `RooFit::BatchModeOption` values the driver accepts. -/
inductive BatchModeOption where
  | cpu
  | cuda
deriving DecidableEq

/-- Result of the availability checks of the constructor: either construction
proceeds, or it throws (`std::runtime_error`), which the specification calls
`DeviceUnavailable`. -/
inductive ConstructResult where
  | ok
  | deviceUnavailable
deriving DecidableEq

/-- Mirror of `logArchitectureInfo`.  Inputs: whether the INFO message stream for the
`Fitting` topic is active, whether `RooBatchCompute::hasCuda()` holds, the
requested batch mode, and the process-wide static
`std::pair<RooFit::BatchModeOption, bool> lastBatchMode` (modelled as
`Option BatchModeOption`, `none` when the `bool` is still false).  Output: the
new static state and whether the function threw.  The function returns early
(without reaching the CUDA check) when the message stream is inactive or when
the mode was already logged; otherwise it records the mode and only then
throws if CUDA mode is requested without a CUDA implementation. -/
def logArchitectureInfo (msgActive hasCuda : Bool) (batchMode : BatchModeOption)
    (lastBatchMode : Option BatchModeOption) : Option BatchModeOption × Bool :=
  if msgActive = false then (lastBatchMode, false)
  else if lastBatchMode = some batchMode then (lastBatchMode, false)
  else if batchMode = BatchModeOption.cuda ∧ hasCuda = false then (some batchMode, true)
  else (some batchMode, false)

/-- The availability checks of `RooFitDriver::RooFitDriver`: when ROOT was
compiled without CUDA (`R__HAS_CUDA` undefined), CUDA mode throws
unconditionally; otherwise the only check is the one inside
`logArchitectureInfo`. -/
def constructDriver (compiledWithCuda msgActive hasCuda : Bool) (batchMode : BatchModeOption)
    (lastBatchMode : Option BatchModeOption) : Option BatchModeOption × ConstructResult :=
  if batchMode = BatchModeOption.cuda ∧ compiledWithCuda = false then
    (lastBatchMode, ConstructResult.deviceUnavailable)
  else
    match logArchitectureInfo msgActive hasCuda batchMode lastBatchMode with
    | (l, true) => (l, ConstructResult.deviceUnavailable)
    | (l, false) => (l, ConstructResult.ok)

/-- Claim C3 as stated: whenever the driver is constructed in CUDA mode and no
device backend is present (either not compiled in, or `hasCuda()` false),
construction fails, for every construction unconditionally. -/
def ClaimC3 : Prop :=
  ∀ (compiledWithCuda msgActive hasCuda : Bool) (lastBatchMode : Option BatchModeOption),
    (compiledWithCuda = false ∨ hasCuda = false) →
    (constructDriver compiledWithCuda msgActive hasCuda BatchModeOption.cuda lastBatchMode).2 =
      ConstructResult.deviceUnavailable

/-- C3 counterexample: with CUDA compiled in but `hasCuda()` false, a
construction performed while the INFO message stream is inactive succeeds,
because the availability check lives behind the early returns of
`logArchitectureInfo`. -/
theorem c3_counterexample : ¬ ClaimC3 := by
  intro h
  have := h true false false none (Or.inr rfl)
  simp [constructDriver, logArchitectureInfo] at this

/-- C3 amended: construction in CUDA mode fails exactly when ROOT was compiled
without CUDA, or `hasCuda()` is false while the INFO message stream is active
and CUDA mode has not already been logged by a previous construction. -/
theorem c3_amended (compiledWithCuda msgActive hasCuda : Bool)
    (lastBatchMode : Option BatchModeOption) :
    (constructDriver compiledWithCuda msgActive hasCuda BatchModeOption.cuda lastBatchMode).2 =
      ConstructResult.deviceUnavailable ↔
    compiledWithCuda = false ∨
      (hasCuda = false ∧ msgActive = true ∧ lastBatchMode ≠ some BatchModeOption.cuda) := by
  cases compiledWithCuda <;> cases msgActive <;> cases hasCuda <;>
    rcases lastBatchMode with _ | (_ | _) <;>
      simp [constructDriver, logArchitectureInfo]

/-- Lookup of a node name in the data-span map handed to `setData`
(`dataSpans.find(info.absArg->namePtr())`; node identity is the name pointer,
modelled by the name itself). -/
def spanFor (spans : List (String × List Int)) (nm : String) : Option (List Int) :=
  (spans.find? (fun p => p.1 == nm)).map (fun p => p.2)

/-- The CPU part of `RooFitDriver::setData(DataSpansMap const&)`: the first
loop over `_nodes` resets every pooled buffer, publishes each matching span
into the host data map and sets `fromDataset = true, isDirty = false` for it,
and sets `fromDataset = false, isDirty = true` for every other node; the
second loop rebinds each `outputSize` from the collaborator-provided size map
(`BatchModeDataHelpers::determineOutputSizes`, modelled by the function
`sizes`).  The second loop also flips non-scalar nodes to the `ADirty`
operation mode; that override lives on the external graph objects and is not
part of the engine state modelled here. -/
def setDataCPU (g : Graph) (spans : List (String × List Int)) (sizes : Nat → Nat)
    (st : EngineState) : EngineState :=
  { st with
    hasBuffer := fun i => if i < g.length then false else st.hasBuffer i,
    dmCPU := fun i =>
      if i < g.length then
        match spanFor spans (nodeAt g i).name with
        | some sp => some sp
        | none => st.dmCPU i
      else st.dmCPU i,
    fromDataset := fun i =>
      if i < g.length then (spanFor spans (nodeAt g i).name).isSome else st.fromDataset i,
    isDirty := fun i =>
      if i < g.length then (spanFor spans (nodeAt g i).name).isNone else st.isDirty i,
    outputSize := fun i => if i < g.length then sizes i else st.outputSize i }

/-- Provenance of a `_dataMapCUDA` entry installed by `setData` in CUDA mode:
either it aliases the host span (scalar observables are not copied to the
GPU), or it points into the contiguous `_cudaMemDataset` device array at a
given offset. -/
inductive GpuProv where
  | hostAlias
  | region (offset : Nat)
deriving DecidableEq

/-- Record of what the CUDA branch of `setData` did: the size of the allocated
`_cudaMemDataset` array, the `copyHostToDevice` calls performed
(node, destination offset, element count), and the provenance of each
`_dataMapCUDA` entry it installed. -/
structure CudaSetup where
  totalSize : Nat
  copies : List (Nat × Nat × Nat)
  prov : Nat → Option GpuProv

/-- Value of `totalSize` as accumulated by the first `setData` loop: the summed length
of all dataset spans (scalar ones included). -/
def cudaTotalSize (g : Graph) (st : EngineState) : Nat :=
  ((List.range g.length).map
    (fun i => if st.fromDataset i then ((st.dmCPU i).getD []).length else 0)).sum

/-- One iteration of the CUDA upload loop of `setData`, acting on the
accumulator (device map, running offset `idx`, copy log, provenance map).
Non-dataset nodes are skipped; the device entry of a scalar observable aliases its
host span with no copy; a non-scalar span is copied host-to-device into
`_cudaMemDataset` at the running offset.  The loop reads `fromDataset`,
`outputSize` and the host map, none of which it modifies. -/
def cudaUploadStep (st : EngineState)
    (acc : (Nat → Option (List Int)) × Nat × List (Nat × Nat × Nat) × (Nat → Option GpuProv))
    (i : Nat) :
    (Nat → Option (List Int)) × Nat × List (Nat × Nat × Nat) × (Nat → Option GpuProv) :=
  let (dm, idx, cps, pv) := acc
  if st.fromDataset i = false then acc
  else if st.outputSize i = 1 then
    (Function.update dm i (st.dmCPU i), idx, cps, Function.update pv i (some GpuProv.hostAlias))
  else
    (Function.update dm i (st.dmCPU i), idx + st.outputSize i,
      cps ++ [(i, idx, st.outputSize i)], Function.update pv i (some (GpuProv.region idx)))

/-- The CUDA branch of `setData`: allocate `_cudaMemDataset` and run the
upload loop over all nodes.  The device span of a copied column holds the same
values as the host span (that is what `copyHostToDevice` establishes), so the
value map records `st.dmCPU i` in both branches; the provenance map keeps the
alias/copy distinction. -/
def setDataCUDA (g : Graph) (st : EngineState) : EngineState × CudaSetup :=
  let r := (List.range g.length).foldl (cudaUploadStep st) (st.dmCUDA, 0, [], fun _ => none)
  ({ st with dmCUDA := r.1 },
    { totalSize := cudaTotalSize g st, copies := r.2.2.1, prov := r.2.2.2 })

/-- Mirror of `RooFitDriver::setData`: the CPU rebinding always runs; in CUDA mode the
dataset is additionally uploaded to the device and `markGPUNodes` recomputes
the placement flags. -/
def setData (cudaMode : Bool) (g : Graph) (spans : List (String × List Int))
    (sizes : Nat → Nat) (st : EngineState) : EngineState × Option CudaSetup :=
  let st1 := setDataCPU g spans sizes st
  if cudaMode = false then (st1, none)
  else
    let p := setDataCUDA g st1
    (markGPUNodes g p.1, some p.2)

/-- Claim C6 as stated: `setData` resets every pooled buffer and clears the
`fromDataset` and `isDirty` flags, then publishes exactly the matching spans,
setting `fromDataset = true, isDirty = false` on them — so a node with no
matching span would end with both flags cleared (`false`). -/
def ClaimC6 : Prop :=
  ∀ (g : Graph) (spans : List (String × List Int)) (sizes : Nat → Nat) (st : EngineState),
    ∀ i < g.length,
      (setData false g spans sizes st).1.hasBuffer i = false ∧
      (∀ sp, spanFor spans (nodeAt g i).name = some sp →
        (setData false g spans sizes st).1.dmCPU i = some sp ∧
        (setData false g spans sizes st).1.fromDataset i = true ∧
        (setData false g spans sizes st).1.isDirty i = false) ∧
      (spanFor spans (nodeAt g i).name = none →
        (setData false g spans sizes st).1.fromDataset i = false ∧
        (setData false g spans sizes st).1.isDirty i = false)

/-- C6 counterexample: on a one-node graph with an empty span map, `setData`
leaves the node with `isDirty = true`, not `false` — the first loop marks
every non-matching node dirty rather than clearing the flag. -/
theorem c6_counterexample : ¬ ClaimC6 := by
  intro h
  have := (h [default] [] (fun _ => 1)
      { fromDataset := fun _ => false, isDirty := fun _ => false,
        lastSetValCount := fun _ => none, hasBuffer := fun _ => false,
        outputSize := fun _ => 1, copyAfterEvaluation := fun _ => false,
        remServers := fun _ => 0, remClients := fun _ => 0,
        dmCPU := fun _ => none, dmCUDA := fun _ => none }
      0 (by decide)).2.2 rfl
  simp [setData, setDataCPU, spanFor] at this

/-- C6 amended: the single `setData` loop resets every pooled buffer and then,
per node, either publishes the matching span with `fromDataset = true,
isDirty = false`, or — for nodes with no matching span — sets
`fromDataset = false` and `isDirty = true` (so they are recomputed on the next
evaluation), leaving their host map entry untouched. -/
theorem c6_amended (g : Graph) (spans : List (String × List Int)) (sizes : Nat → Nat)
    (st : EngineState) (i : Nat) (hi : i < g.length) :
    (setData false g spans sizes st).1.hasBuffer i = false ∧
    (∀ sp, spanFor spans (nodeAt g i).name = some sp →
      (setData false g spans sizes st).1.dmCPU i = some sp ∧
      (setData false g spans sizes st).1.fromDataset i = true ∧
      (setData false g spans sizes st).1.isDirty i = false) ∧
    (spanFor spans (nodeAt g i).name = none →
      (setData false g spans sizes st).1.fromDataset i = false ∧
      (setData false g spans sizes st).1.isDirty i = true ∧
      (setData false g spans sizes st).1.dmCPU i = st.dmCPU i) := by
  refine ⟨by simp [setData, setDataCPU, hi], fun sp hsp => ?_, fun hnone => ?_⟩
  · simp [setData, setDataCPU, hi, hsp, Option.isSome]
  · simp [setData, setDataCPU, hi, hnone, Option.isNone]

/-- Concrete instantiation of `c6_amended`: one matching and one non-matching
node. -/
theorem c6_amended_witness :
    let g : Graph := [{ name := "x", servers := [], isVariable := false, isCategory := false,
                        isReducer := false, cudaCapable := false },
                      { name := "f", servers := [0], isVariable := false, isCategory := false,
                        isReducer := false, cudaCapable := false }]
    let st : EngineState :=
      { fromDataset := fun _ => false, isDirty := fun _ => false,
        lastSetValCount := fun _ => none, hasBuffer := fun _ => true,
        outputSize := fun _ => 1, copyAfterEvaluation := fun _ => false,
        remServers := fun _ => 0, remClients := fun _ => 0,
        dmCPU := fun _ => none, dmCUDA := fun _ => none }
    (1 : Nat) < g.length ∧
      ((setData false g [("x", [5, 6])] (fun _ => 2) st).1.hasBuffer 1 = false ∧
      (∀ sp, spanFor [("x", [5, 6])] (nodeAt g 1).name = some sp →
        (setData false g [("x", [5, 6])] (fun _ => 2) st).1.dmCPU 1 = some sp ∧
        (setData false g [("x", [5, 6])] (fun _ => 2) st).1.fromDataset 1 = true ∧
        (setData false g [("x", [5, 6])] (fun _ => 2) st).1.isDirty 1 = false) ∧
      (spanFor [("x", [5, 6])] (nodeAt g 1).name = none →
        (setData false g [("x", [5, 6])] (fun _ => 2) st).1.fromDataset 1 = false ∧
        (setData false g [("x", [5, 6])] (fun _ => 2) st).1.isDirty 1 = true ∧
        (setData false g [("x", [5, 6])] (fun _ => 2) st).1.dmCPU 1 = st.dmCPU 1)) :=
  ⟨by decide, c6_amended _ _ _ _ 1 (by decide)⟩

/-- The copy log the CUDA upload loop produces when it processes the node
indices `l` starting at running offset `idx`. -/
def cudaCopiesFrom (st : EngineState) : List Nat → Nat → List (Nat × Nat × Nat)
  | [], _ => []
  | i :: t, idx =>
    if st.fromDataset i = true ∧ st.outputSize i ≠ 1 then
      (i, idx, st.outputSize i) :: cudaCopiesFrom st t (idx + st.outputSize i)
    else cudaCopiesFrom st t idx

lemma cudaFold_copies (st : EngineState) (l : List Nat) :
    ∀ dm0 idx0 cps0 pv0,
      (l.foldl (cudaUploadStep st) (dm0, idx0, cps0, pv0)).2.2.1 =
        cps0 ++ cudaCopiesFrom st l idx0 := by
  induction l with
  | nil => intro dm0 idx0 cps0 pv0; simp [cudaCopiesFrom]
  | cons i t ih =>
    intro dm0 idx0 cps0 pv0
    cases hds : st.fromDataset i with
    | false =>
      have hcond : ¬ (st.fromDataset i = true ∧ st.outputSize i ≠ 1) := by simp [hds]
      simp only [List.foldl_cons, cudaUploadStep]
      rw [if_pos hds, ih, cudaCopiesFrom, if_neg hcond]
    | true =>
      have hdsf : ¬ st.fromDataset i = false := by simp [hds]
      by_cases hsz : st.outputSize i = 1
      · have hcond : ¬ (st.fromDataset i = true ∧ st.outputSize i ≠ 1) := by simp [hsz]
        simp only [List.foldl_cons, cudaUploadStep, if_neg hdsf, if_pos hsz]
        rw [ih, cudaCopiesFrom, if_neg hcond]
      · have hcond : st.fromDataset i = true ∧ st.outputSize i ≠ 1 := ⟨hds, hsz⟩
        simp only [List.foldl_cons, cudaUploadStep, if_neg hdsf, if_neg hsz]
        rw [ih, cudaCopiesFrom, if_pos hcond]
        simp

lemma cudaFold_frame (st : EngineState) (l : List Nat) :
    ∀ dm0 idx0 cps0 pv0 j, j ∉ l →
      (l.foldl (cudaUploadStep st) (dm0, idx0, cps0, pv0)).1 j = dm0 j ∧
      (l.foldl (cudaUploadStep st) (dm0, idx0, cps0, pv0)).2.2.2 j = pv0 j := by
  induction l with
  | nil => intro dm0 idx0 cps0 pv0 j _; exact ⟨rfl, rfl⟩
  | cons i t ih =>
    intro dm0 idx0 cps0 pv0 j hj
    have hji : j ≠ i := by simp at hj; exact fun h => hj.1 h
    have hjt : j ∉ t := by simp at hj; exact hj.2
    by_cases hds : st.fromDataset i = false
    · simpa [cudaUploadStep, hds] using ih dm0 idx0 cps0 pv0 j hjt
    · by_cases hsz : st.outputSize i = 1
      · have := ih (Function.update dm0 i (st.dmCPU i)) idx0 cps0
          (Function.update pv0 i (some GpuProv.hostAlias)) j hjt
        simpa [cudaUploadStep, hds, hsz, Function.update_noteq hji] using this
      · have := ih (Function.update dm0 i (st.dmCPU i)) (idx0 + st.outputSize i)
          (cps0 ++ [(i, idx0, st.outputSize i)])
          (Function.update pv0 i (some (GpuProv.region idx0))) j hjt
        simpa [cudaUploadStep, hds, hsz, Function.update_noteq hji] using this

lemma cudaFold_member (st : EngineState) (l : List Nat) (hl : l.Nodup) :
    ∀ dm0 idx0 cps0 pv0 j, j ∈ l → st.fromDataset j = true →
      (st.outputSize j = 1 →
        (l.foldl (cudaUploadStep st) (dm0, idx0, cps0, pv0)).2.2.2 j = some GpuProv.hostAlias ∧
        (l.foldl (cudaUploadStep st) (dm0, idx0, cps0, pv0)).1 j = st.dmCPU j) ∧
      (st.outputSize j ≠ 1 →
        ∃ off, (l.foldl (cudaUploadStep st) (dm0, idx0, cps0, pv0)).2.2.2 j =
            some (GpuProv.region off) ∧
          (j, off, st.outputSize j) ∈
            (l.foldl (cudaUploadStep st) (dm0, idx0, cps0, pv0)).2.2.1) := by
  induction l with
  | nil => intro dm0 idx0 cps0 pv0 j hj; simp at hj
  | cons i t ih =>
    intro dm0 idx0 cps0 pv0 j hj hds
    have hnd := hl
    rw [List.nodup_cons] at hnd
    rcases List.mem_cons.mp hj with hji | hjt
    · subst hji
      have hjt2 : j ∉ t := hnd.1
      have hdsf : ¬ st.fromDataset j = false := by simp [hds]
      by_cases hsz : st.outputSize j = 1
      · refine ⟨fun _ => ?_, fun h => absurd hsz h⟩
        have hframe := cudaFold_frame st t (Function.update dm0 j (st.dmCPU j)) idx0 cps0
          (Function.update pv0 j (some GpuProv.hostAlias)) j hjt2
        constructor
        · simpa [cudaUploadStep, hdsf, hsz, Function.update_same] using hframe.2
        · simpa [cudaUploadStep, hdsf, hsz, Function.update_same] using hframe.1
      · refine ⟨fun h => absurd h hsz, fun _ => ⟨idx0, ?_, ?_⟩⟩
        · have hframe := cudaFold_frame st t (Function.update dm0 j (st.dmCPU j))
            (idx0 + st.outputSize j) (cps0 ++ [(j, idx0, st.outputSize j)])
            (Function.update pv0 j (some (GpuProv.region idx0))) j hjt2
          simpa [cudaUploadStep, hdsf, hsz, Function.update_same] using hframe.2
        · have hcps := cudaFold_copies st t (Function.update dm0 j (st.dmCPU j))
            (idx0 + st.outputSize j) (cps0 ++ [(j, idx0, st.outputSize j)])
            (Function.update pv0 j (some (GpuProv.region idx0)))
          simp only [List.foldl_cons, cudaUploadStep, if_neg hdsf, if_neg hsz]
          rw [hcps]
          simp
    · have htl : t.Nodup := hnd.2
      by_cases hdsi : st.fromDataset i = false
      · simpa [cudaUploadStep, hdsi] using ih htl dm0 idx0 cps0 pv0 j hjt hds
      · by_cases hsz : st.outputSize i = 1
        · simpa [cudaUploadStep, hdsi, hsz] using
            ih htl (Function.update dm0 i (st.dmCPU i)) idx0 cps0
              (Function.update pv0 i (some GpuProv.hostAlias)) j hjt hds
        · simpa [cudaUploadStep, hdsi, hsz] using
            ih htl (Function.update dm0 i (st.dmCPU i)) (idx0 + st.outputSize i)
              (cps0 ++ [(i, idx0, st.outputSize i)])
              (Function.update pv0 i (some (GpuProv.region idx0))) j hjt hds

lemma cudaCopiesFrom_entries (st : EngineState) (l : List Nat) :
    ∀ idx c, c ∈ cudaCopiesFrom st l idx →
      c.1 ∈ l ∧ st.fromDataset c.1 = true ∧ st.outputSize c.1 ≠ 1 ∧
        c.2.2 = st.outputSize c.1 := by
  induction l with
  | nil => intro idx c hc; simp [cudaCopiesFrom] at hc
  | cons i t ih =>
    intro idx c hc
    by_cases h : st.fromDataset i = true ∧ st.outputSize i ≠ 1
    · rw [cudaCopiesFrom, if_pos h] at hc
      rcases List.mem_cons.mp hc with hc1 | hc2
      · subst hc1; exact ⟨List.mem_cons_self _ _, h.1, h.2, rfl⟩
      · have := ih _ c hc2
        exact ⟨List.mem_cons_of_mem _ this.1, this.2⟩
    · rw [cudaCopiesFrom, if_neg h] at hc
      have := ih _ c hc
      exact ⟨List.mem_cons_of_mem _ this.1, this.2⟩

lemma cudaCopiesFrom_map_fst (st : EngineState) (l : List Nat) :
    ∀ idx, (cudaCopiesFrom st l idx).map (fun c => c.1) =
      l.filter (fun i => st.fromDataset i && decide (st.outputSize i ≠ 1)) := by
  induction l with
  | nil => intro idx; simp [cudaCopiesFrom]
  | cons i t ih =>
    intro idx
    by_cases h : st.fromDataset i = true ∧ st.outputSize i ≠ 1
    · have hb : (st.fromDataset i && decide (st.outputSize i ≠ 1)) = true := by
        simp [h.1, h.2]
      rw [cudaCopiesFrom, if_pos h, List.filter_cons, if_pos hb, List.map_cons, ih]
    · have hb : (st.fromDataset i && decide (st.outputSize i ≠ 1)) = false := by
        by_cases hds : st.fromDataset i = true
        · have hsz : st.outputSize i = 1 := by
            by_contra hc
            exact h ⟨hds, hc⟩
          simp [hds, hsz]
        · have hf : st.fromDataset i = false := by
            revert hds; cases st.fromDataset i <;> simp
          simp [hf]
      rw [cudaCopiesFrom, if_neg h, List.filter_cons, if_neg (by rw [hb]; simp)]
      exact ih idx

lemma cudaCopiesFrom_offsets (st : EngineState) (l : List Nat) :
    ∀ idx pre c post, cudaCopiesFrom st l idx = pre ++ c :: post →
      c.2.1 = idx + (pre.map (fun x => x.2.2)).sum := by
  induction l with
  | nil =>
    intro idx pre c post h
    rw [cudaCopiesFrom] at h
    exact absurd h (by simp)
  | cons i t ih =>
    intro idx pre c post h
    by_cases hc : st.fromDataset i = true ∧ st.outputSize i ≠ 1
    · rw [cudaCopiesFrom, if_pos hc] at h
      cases pre with
      | nil =>
        simp only [List.nil_append, List.cons.injEq] at h
        rw [← h.1]
        simp
      | cons p pre2 =>
        simp only [List.cons_append, List.cons.injEq] at h
        have := ih (idx + st.outputSize i) pre2 c post h.2
        rw [this, ← h.1]
        simp only [List.map_cons, List.sum_cons]
        omega
    · rw [cudaCopiesFrom, if_neg hc] at h
      exact ih idx pre c post h

lemma setDataCUDA_copies (g : Graph) (st : EngineState) :
    (setDataCUDA g st).2.copies = cudaCopiesFrom st (List.range g.length) 0 := by
  show ((List.range g.length).foldl (cudaUploadStep st)
    (st.dmCUDA, 0, [], fun _ => none)).2.2.1 = _
  rw [cudaFold_copies]
  simp

/-- C10: in CUDA mode, `setData` copies exactly the non-scalar dataset spans
into the contiguous device region (consecutive offsets: the destination
offset of each copy is the summed length of the copies before it), while every
scalar dataset leaf gets a device map entry that aliases the host span, with
no host-to-device copy performed for that leaf. -/
theorem c10_cuda_dataset_upload (g : Graph) (spans : List (String × List Int))
    (sizes : Nat → Nat) (st : EngineState) :
    (setData true g spans sizes st).2 =
      some (setDataCUDA g (setDataCPU g spans sizes st)).2 ∧
    ((setDataCUDA g (setDataCPU g spans sizes st)).2.copies.map (fun c => c.1) =
      (List.range g.length).filter
        (fun i => (setDataCPU g spans sizes st).fromDataset i &&
          decide ((setDataCPU g spans sizes st).outputSize i ≠ 1))) ∧
    (∀ pre c post,
      (setDataCUDA g (setDataCPU g spans sizes st)).2.copies = pre ++ c :: post →
        c.2.1 = (pre.map (fun x => x.2.2)).sum) ∧
    (∀ i, i < g.length → (setDataCPU g spans sizes st).fromDataset i = true →
      (setDataCPU g spans sizes st).outputSize i = 1 →
        (setDataCUDA g (setDataCPU g spans sizes st)).2.prov i = some GpuProv.hostAlias ∧
        (setData true g spans sizes st).1.dmCUDA i = (setDataCPU g spans sizes st).dmCPU i ∧
        (∀ c ∈ (setDataCUDA g (setDataCPU g spans sizes st)).2.copies, c.1 ≠ i)) ∧
    (∀ i, i < g.length → (setDataCPU g spans sizes st).fromDataset i = true →
      (setDataCPU g spans sizes st).outputSize i ≠ 1 →
        ∃ off, (setDataCUDA g (setDataCPU g spans sizes st)).2.prov i =
            some (GpuProv.region off) ∧
          (i, off, (setDataCPU g spans sizes st).outputSize i) ∈
            (setDataCUDA g (setDataCPU g spans sizes st)).2.copies) := by
  set st1 := setDataCPU g spans sizes st with hst1
  refine ⟨by simp [setData], ?_, ?_, ?_, ?_⟩
  · rw [setDataCUDA_copies]
    exact cudaCopiesFrom_map_fst st1 (List.range g.length) 0
  · intro pre c post h
    rw [setDataCUDA_copies] at h
    simpa using cudaCopiesFrom_offsets st1 (List.range g.length) 0 pre c post h
  · intro i hi hds hsz
    have hmem := cudaFold_member st1 (List.range g.length) (List.nodup_range _)
      st1.dmCUDA 0 [] (fun _ => none) i (List.mem_range.mpr hi) hds
    refine ⟨(hmem.1 hsz).1, ?_, ?_⟩
    · have hdm := (hmem.1 hsz).2
      have heq : (setData true g spans sizes st).1.dmCUDA =
          (markGPUNodes g (setDataCUDA g st1).1).dmCUDA := by
        simp [setData, hst1]
      rw [heq, markGPUNodes_dmCUDA]
      exact hdm
    · intro c hc
      rw [setDataCUDA_copies] at hc
      intro hci
      have := (cudaCopiesFrom_entries st1 (List.range g.length) 0 c hc).2.2.1
      rw [hci] at this
      exact this hsz
  · intro i hi hds hsz
    have hmem := cudaFold_member st1 (List.range g.length) (List.nodup_range _)
      st1.dmCUDA 0 [] (fun _ => none) i (List.mem_range.mpr hi) hds
    exact hmem.2 hsz

/-- The loop body of `RooFitDriver::getParameters`: walk `_nodes` (carrying
the topological index, since `fromDataset` lives in the per-node info) and
collect the names of the nodes with `!fromDataset && isVariable`. -/
def driverParamsAux (st : EngineState) : List Node → Nat → List String
  | [], _ => []
  | nd :: t, i =>
    if !(st.fromDataset i) && nd.isVariable then nd.name :: driverParamsAux st t (i + 1)
    else driverParamsAux st t (i + 1)

/-- Mirror of `RooFitDriver::getParameters`: collect all `!fromDataset && isVariable`
nodes into a `RooArgSet` and sort it alphabetically by name (the result is
modelled as the sorted list of names). -/
def getParameters (g : Graph) (st : EngineState) : List String :=
  (driverParamsAux st g 0).mergeSort (fun a b => decide (a ≤ b))

/-- Modelled from the spec: the parameter enumeration of the graph provider
(`RooAbsReal::getParameters`, not part of src/).  Per the spec, the driver
method "returns all `isVariable && !fromDataset` nodes, sorted by name" and
"a cached fast path" over the equivalent collaborator query, so the
collaborator enumerates exactly the variable leaves not bound by the current
dataset, sorted by name. -/
def collaboratorParameterQuery (g : Graph) (st : EngineState) : List String :=
  (((List.range g.length).filter
      (fun i => (nodeAt g i).isVariable && !(st.fromDataset i))).map
    (fun i => (nodeAt g i).name)).mergeSort (fun a b => decide (a ≤ b))

lemma driverParamsAux_drop (st : EngineState) (g : Graph) :
    ∀ n k, k + n = g.length →
      driverParamsAux st (g.drop k) k =
        ((List.range' k n).filter
          (fun i => (nodeAt g i).isVariable && !(st.fromDataset i))).map
          (fun i => (nodeAt g i).name) := by
  intro n
  induction n with
  | zero =>
    intro k hk
    have hdrop : g.drop k = [] := by
      apply List.drop_eq_nil_of_le
      omega
    rw [hdrop]
    simp [driverParamsAux, List.range']
  | succ m ih =>
    intro k hk
    have hklen : k < g.length := by omega
    have hdrop : g.drop k = g[k] :: g.drop (k + 1) := List.drop_eq_getElem_cons hklen
    have hnode : g[k] = nodeAt g k := by
      rw [nodeAt, List.getD_eq_getElem?_getD, List.getElem?_eq_getElem hklen]
      rfl
    have hrange : List.range' k (m + 1) = k :: List.range' (k + 1) m := rfl
    rw [hdrop, hnode, hrange]
    have hrec := ih (k + 1) (by omega)
    cases hvar : (nodeAt g k).isVariable with
    | false =>
      have hnp : ((nodeAt g k).isVariable && !(st.fromDataset k)) = false := by
        simp [hvar]
      rw [driverParamsAux, if_neg (by simp [hvar]), List.filter_cons, if_neg (by rw [hnp]; simp)]
      exact hrec
    | true =>
      cases hds : st.fromDataset k with
      | true =>
        have hnp : ((nodeAt g k).isVariable && !(st.fromDataset k)) = false := by
          simp [hds]
        rw [driverParamsAux, if_neg (by simp [hds]), List.filter_cons, if_neg (by rw [hnp]; simp)]
        exact hrec
      | false =>
        have hp : ((nodeAt g k).isVariable && !(st.fromDataset k)) = true := by
          simp [hvar, hds]
        rw [driverParamsAux, if_pos (by simp [hvar, hds]), List.filter_cons, if_pos hp,
          List.map_cons, hrec]

lemma driverParamsAux_eq (st : EngineState) (g : Graph) :
    driverParamsAux st g 0 =
      ((List.range g.length).filter
        (fun i => (nodeAt g i).isVariable && !(st.fromDataset i))).map
        (fun i => (nodeAt g i).name) := by
  have := driverParamsAux_drop st g g.length 0 (by omega)
  simpa [List.range_eq_range'] using this

/-- C8: `getParameters` returns exactly the `isVariable && !fromDataset`
nodes, sorted by name, and coincides with the own parameter enumeration of
the graph provider. -/
theorem c8_getParameters (g : Graph) (st : EngineState) :
    getParameters g st = collaboratorParameterQuery g st ∧
    (getParameters g st).Sorted (fun a b => a ≤ b) ∧
    (∀ nm, nm ∈ getParameters g st ↔
      ∃ i, i < g.length ∧ (nodeAt g i).isVariable = true ∧ st.fromDataset i = false ∧
        (nodeAt g i).name = nm) := by
  refine ⟨?_, ?_, ?_⟩
  · rw [getParameters, collaboratorParameterQuery, driverParamsAux_eq]
  · have h := List.sorted_mergeSort' (α := String) (driverParamsAux st g 0)
    exact h
  · intro nm
    rw [getParameters, List.mem_mergeSort, driverParamsAux_eq]
    simp only [List.mem_map, List.mem_filter, List.mem_range, Bool.and_eq_true,
      Bool.not_eq_true']
    constructor
    · rintro ⟨i, ⟨hi, hvar, hds⟩, hnm⟩
      exact ⟨i, hi, hvar, hds, hnm⟩
    · rintro ⟨i, hi, hvar, hds, hnm⟩
      exact ⟨i, ⟨hi, hvar, hds⟩, hnm⟩

/-- Mirror of `RooFitDriver::computeCPUNode`: run the host kernel of node `i`.  A scalar
output goes into the inline `scalarBuffer` (in CUDA mode its span is also
installed in the device map — same pointer, so after the kernel writes, the
device side sees the value); a non-scalar output goes into the pooled buffer,
acquired on first use (pinned when `copyAfterEvaluation`, in which case the
device view of the buffer is published to the device map after the kernel runs).
The computed span is published into the host map. -/
def computeCPUNode (cudaMode : Bool) (g : Graph) (K : Kernel) (i : Nat)
    (st : EngineState) : EngineState :=
  let nOut := st.outputSize i
  let hb := if nOut = 1 then st.hasBuffer i else true
  let v := K i (inputSpans g st.dmCPU i)
  let publishCuda := cudaMode && (decide (nOut = 1) || st.copyAfterEvaluation i)
  { st with
    hasBuffer := Function.update st.hasBuffer i hb,
    dmCPU := Function.update st.dmCPU i (some v),
    dmCUDA := if publishCuda = true then Function.update st.dmCUDA i (some v) else st.dmCUDA }

/-- Mirror of `RooFitDriver::setClientsDirty`: flag all clients of node `i` dirty. -/
def setClientsDirty (g : Graph) (i : Nat) (st : EngineState) : EngineState :=
  { st with isDirty := fun j => if j ∈ clients g i then true else st.isDirty j }

/-- Mirror of `RooFitDriver::processVariable`: when the `valueResetCounter`
of the parameter leaf (the per-evaluation input `ctr`) differs from the cached
`lastSetValCount`, update the cache, flag the clients dirty, recompute the
published value of the leaf, clear its own dirty flag; otherwise do nothing.  The
returned flag records whether the recompute happened. -/
def processVariable (g : Graph) (K : Kernel) (ctr : Nat → Nat) (i : Nat)
    (st : EngineState) : EngineState × Bool :=
  if st.lastSetValCount i ≠ some (ctr i) then
    let st1 := { st with lastSetValCount := Function.update st.lastSetValCount i (some (ctr i)) }
    let st2 := setClientsDirty g i st1
    let st3 := computeCPUNode false g K i st2
    ({ st3 with isDirty := Function.update st3.isDirty i false }, true)
  else (st, false)

/-- The body of the CPU-mode `getVal` loop at node `i`: dataset-bound nodes
are skipped; variables go through `processVariable`; other nodes recompute
exactly when dirty, flagging their clients first.  The returned flag records
whether the kernel of the node was invoked. -/
def evalNode (g : Graph) (K : Kernel) (ctr : Nat → Nat) (i : Nat)
    (st : EngineState) : EngineState × Bool :=
  if st.fromDataset i = true then (st, false)
  else if (nodeAt g i).isVariable = true then processVariable g K ctr i st
  else if st.isDirty i = true then
    let st1 := setClientsDirty g i st
    let st2 := computeCPUNode false g K i st1
    ({ st2 with isDirty := Function.update st2.isDirty i false }, true)
  else (st, false)

/-- The CPU-mode `getVal` loop over a list of node indices, collecting the
indices whose kernel was invoked. -/
def hostPass (g : Graph) (K : Kernel) (ctr : Nat → Nat) :
    List Nat → EngineState → EngineState × List Nat
  | [], st => (st, [])
  | i :: rest, st =>
    let p := evalNode g K ctr i st
    let q := hostPass g K ctr rest p.1
    (q.1, (if p.2 then [i] else []) ++ q.2)

/-- Mirror of `RooFitDriver::getVal` in CPU mode: one pass over `_nodes` in topological
order, then return the first element of the published span of the top node
(`_dataMapCPU.at(&topNode())[0]`; the top node is the last one).  Also
returns the set of invoked kernels for the analysis. -/
def getVal (g : Graph) (K : Kernel) (ctr : Nat → Nat) (st : EngineState) :
    EngineState × List Nat × Option Int :=
  let p := hostPass g K ctr (List.range g.length) st
  (p.1, p.2, (p.1.dmCPU (g.length - 1)).bind (fun v => v.head?))

lemma evalNode_invoked (g : Graph) (K : Kernel) (ctr : Nat → Nat) (i : Nat)
    (st : EngineState) :
    (evalNode g K ctr i st).2 = true ↔
      st.fromDataset i = false ∧
        (((nodeAt g i).isVariable = true ∧ st.lastSetValCount i ≠ some (ctr i)) ∨
         ((nodeAt g i).isVariable = false ∧ st.isDirty i = true)) := by
  rw [evalNode]
  by_cases hds : st.fromDataset i = true
  · simp [hds]
  · have hds2 : st.fromDataset i = false := by
      revert hds; cases st.fromDataset i <;> simp
    by_cases hvar : (nodeAt g i).isVariable = true
    · rw [if_neg hds, if_pos hvar, processVariable]
      by_cases hls : st.lastSetValCount i ≠ some (ctr i)
      · simp [hls, hds2, hvar]
      · rw [if_neg hls]
        push_neg at hls
        simp [hds2, hvar, hls]
    · have hvar2 : (nodeAt g i).isVariable = false := by
        revert hvar; cases (nodeAt g i).isVariable <;> simp
      rw [if_neg hds, if_neg hvar]
      by_cases hdirty : st.isDirty i = true
      · simp [hdirty, hds2, hvar2]
      · simp [hdirty, hds2, hvar2]

lemma evalNode_not_invoked_id (g : Graph) (K : Kernel) (ctr : Nat → Nat) (i : Nat)
    (st : EngineState) (h : (evalNode g K ctr i st).2 = false) :
    (evalNode g K ctr i st).1 = st := by
  revert h
  rw [evalNode]
  by_cases hds : st.fromDataset i = true
  · simp [hds]
  · rw [if_neg hds]
    by_cases hvar : (nodeAt g i).isVariable = true
    · rw [if_pos hvar, processVariable]
      by_cases hls : st.lastSetValCount i ≠ some (ctr i)
      · simp [hls]
      · simp [hls]
    · rw [if_neg hvar]
      by_cases hdirty : st.isDirty i = true
      · simp [hdirty]
      · simp [hdirty]

lemma evalNode_fromDataset (g : Graph) (K : Kernel) (ctr : Nat → Nat) (i : Nat)
    (st : EngineState) :
    (evalNode g K ctr i st).1.fromDataset = st.fromDataset := by
  rw [evalNode]
  by_cases hds : st.fromDataset i = true
  · simp [hds]
  · rw [if_neg hds]
    by_cases hvar : (nodeAt g i).isVariable = true
    · rw [if_pos hvar, processVariable]
      by_cases hls : st.lastSetValCount i ≠ some (ctr i)
      · simp [hls, computeCPUNode, setClientsDirty]
      · simp [hls]
    · rw [if_neg hvar]
      by_cases hdirty : st.isDirty i = true
      · simp [hdirty, computeCPUNode, setClientsDirty]
      · simp [hdirty]

lemma evalNode_lastSet (g : Graph) (K : Kernel) (ctr : Nat → Nat) (i : Nat)
    (st : EngineState) (j : Nat) :
    (evalNode g K ctr i st).1.lastSetValCount j =
      if j = i ∧ (evalNode g K ctr i st).2 = true ∧ (nodeAt g i).isVariable = true
      then some (ctr i) else st.lastSetValCount j := by
  rw [evalNode]
  by_cases hds : st.fromDataset i = true
  · simp [hds]
  · rw [if_neg hds]
    by_cases hvar : (nodeAt g i).isVariable = true
    · rw [if_pos hvar, processVariable]
      by_cases hls : st.lastSetValCount i ≠ some (ctr i)
      · rw [if_pos hls]
        by_cases hji : j = i
        · subst hji
          simp [computeCPUNode, setClientsDirty, hvar, Function.update_same]
        · simp [computeCPUNode, setClientsDirty, hji, hvar, Function.update_noteq hji]
      · rw [if_neg hls]
        push_neg at hls
        by_cases hji : j = i
        · subst hji; simp [hvar, hls]
        · simp [hji]
    · rw [if_neg hvar]
      have hvar2 : (nodeAt g i).isVariable = false := by
        revert hvar; cases (nodeAt g i).isVariable <;> simp
      by_cases hdirty : st.isDirty i = true
      · simp [hdirty, computeCPUNode, setClientsDirty, hvar2]
      · simp [hdirty, hvar2]

lemma evalNode_isDirty (g : Graph) (K : Kernel) (ctr : Nat → Nat) (i : Nat)
    (st : EngineState) (j : Nat) :
    (evalNode g K ctr i st).1.isDirty j =
      if (evalNode g K ctr i st).2 = true then
        (if j = i then false else if j ∈ clients g i then true else st.isDirty j)
      else st.isDirty j := by
  rw [evalNode]
  by_cases hds : st.fromDataset i = true
  · simp [hds]
  · rw [if_neg hds]
    by_cases hvar : (nodeAt g i).isVariable = true
    · rw [if_pos hvar, processVariable]
      by_cases hls : st.lastSetValCount i ≠ some (ctr i)
      · rw [if_pos hls]
        by_cases hji : j = i
        · subst hji; simp [computeCPUNode, setClientsDirty, Function.update_same]
        · simp [computeCPUNode, setClientsDirty, hji, Function.update_noteq hji]
      · simp [hls]
    · rw [if_neg hvar]
      by_cases hdirty : st.isDirty i = true
      · rw [if_pos hdirty]
        by_cases hji : j = i
        · subst hji; simp [computeCPUNode, setClientsDirty, Function.update_same]
        · simp [computeCPUNode, setClientsDirty, hji, Function.update_noteq hji]
      · simp [hdirty]

lemma hostPass_append (g : Graph) (K : Kernel) (ctr : Nat → Nat) (l1 l2 : List Nat)
    (st : EngineState) :
    hostPass g K ctr (l1 ++ l2) st =
      ((hostPass g K ctr l2 (hostPass g K ctr l1 st).1).1,
       (hostPass g K ctr l1 st).2 ++ (hostPass g K ctr l2 (hostPass g K ctr l1 st).1).2) := by
  induction l1 generalizing st with
  | nil => simp [hostPass]
  | cons a t ih =>
    simp only [List.cons_append, hostPass, List.append_eq]
    rw [ih ((evalNode g K ctr a st).1)]
    simp [List.append_assoc]

/-- Whether the kernel of a node fires during a CPU-mode evaluation started from
state `st` with parameter counters `ctr`: a non-dataset variable fires when
its counter differs from the cached `lastSetValCount`; a non-dataset derived
node fires when it starts dirty or when one of its value servers fires (the
recompute of the server flags it dirty before it is visited). -/
inductive Fires (g : Graph) (st : EngineState) (ctr : Nat → Nat) : Nat → Prop where
  | var (i : Nat) : st.fromDataset i = false → (nodeAt g i).isVariable = true →
      st.lastSetValCount i ≠ some (ctr i) → Fires g st ctr i
  | stale (i : Nat) : st.fromDataset i = false → (nodeAt g i).isVariable = false →
      st.isDirty i = true → Fires g st ctr i
  | client (i s : Nat) : st.fromDataset i = false → (nodeAt g i).isVariable = false →
      s ∈ (nodeAt g i).servers → Fires g st ctr s → Fires g st ctr i

lemma fires_cases (g : Graph) (st : EngineState) (ctr : Nat → Nat) (i : Nat) :
    Fires g st ctr i ↔
      st.fromDataset i = false ∧
        (((nodeAt g i).isVariable = true ∧ st.lastSetValCount i ≠ some (ctr i)) ∨
         ((nodeAt g i).isVariable = false ∧
           (st.isDirty i = true ∨ ∃ s, s ∈ (nodeAt g i).servers ∧ Fires g st ctr s))) := by
  constructor
  · intro h
    cases h with
    | var i h1 h2 h3 => exact ⟨h1, Or.inl ⟨h2, h3⟩⟩
    | stale i h1 h2 h3 => exact ⟨h1, Or.inr ⟨h2, Or.inl h3⟩⟩
    | client i s h1 h2 hs hf => exact ⟨h1, Or.inr ⟨h2, Or.inr ⟨s, hs, hf⟩⟩⟩
  · rintro ⟨h1, ⟨h2, h3⟩ | ⟨h2, h3 | ⟨s, hs, hf⟩⟩⟩
    · exact Fires.var i h1 h2 h3
    · exact Fires.stale i h1 h2 h3
    · exact Fires.client i s h1 h2 hs hf

lemma mem_clients (g : Graph) (i j : Nat) :
    j ∈ clients g i ↔ j < g.length ∧ i ∈ (nodeAt g j).servers := by
  simp [clients, List.mem_filter, List.mem_range]

lemma servers_out_of_range (g : Graph) (j : Nat) (h : g.length ≤ j) :
    (nodeAt g j).servers = [] := by
  have hd : g.getD j default = default := List.getD_eq_default _ _ h
  rw [nodeAt, hd]
  rfl

lemma hostPass_master (g : Graph) (K : Kernel) (ctr : Nat → Nat) (st : EngineState)
    (hwf : Wellformed g) :
    ∀ k, k ≤ g.length →
      (∀ i, i ∈ (hostPass g K ctr (List.range k) st).2 ↔ (i < k ∧ Fires g st ctr i)) ∧
      (∀ j, (hostPass g K ctr (List.range k) st).1.fromDataset j = st.fromDataset j) ∧
      (∀ j, k ≤ j →
        ((hostPass g K ctr (List.range k) st).1.isDirty j = true ↔
          (st.isDirty j = true ∨
            ∃ s, s ∈ (nodeAt g j).servers ∧ s < k ∧ Fires g st ctr s))) ∧
      (∀ j, k ≤ j →
        (hostPass g K ctr (List.range k) st).1.lastSetValCount j = st.lastSetValCount j) ∧
      (∀ j, j < k → st.fromDataset j = false →
        ((nodeAt g j).isVariable = true →
          (hostPass g K ctr (List.range k) st).1.lastSetValCount j = some (ctr j)) ∧
        ((nodeAt g j).isVariable = false →
          (hostPass g K ctr (List.range k) st).1.isDirty j = false)) := by
  intro k
  induction k with
  | zero =>
    intro _
    refine ⟨?_, ?_, ?_, ?_, ?_⟩
    · intro i; simp [hostPass]
    · intro j; simp [hostPass]
    · intro j _; simp [hostPass]
    · intro j _; simp [hostPass]
    · intro j hj; omega
  | succ k ih =>
    intro hk
    obtain ⟨Ak, Bk, D1k, D2k, Ek⟩ := ih (by omega)
    have hkn : k < g.length := by omega
    have hsplit : hostPass g K ctr (List.range (k + 1)) st =
        ((evalNode g K ctr k (hostPass g K ctr (List.range k) st).1).1,
         (hostPass g K ctr (List.range k) st).2 ++
           (if (evalNode g K ctr k (hostPass g K ctr (List.range k) st).1).2 = true
            then [k] else [])) := by
      rw [List.range_succ, hostPass_append]
      simp [hostPass]
    have hdsk := Bk k
    have hlsk := D2k k (le_refl k)
    have hdirtyk := D1k k (le_refl k)
    -- the visit of node k fires exactly when `Fires` holds for k
    have hFk : (evalNode g K ctr k (hostPass g K ctr (List.range k) st).1).2 = true ↔
        Fires g st ctr k := by
      rw [evalNode_invoked, hdsk, hlsk, fires_cases]
      constructor
      · rintro ⟨h1, ⟨h2, h3⟩ | ⟨h2, h3⟩⟩
        · exact ⟨h1, Or.inl ⟨h2, h3⟩⟩
        · rcases hdirtyk.mp h3 with hd | ⟨s, hs, _, hf⟩
          · exact ⟨h1, Or.inr ⟨h2, Or.inl hd⟩⟩
          · exact ⟨h1, Or.inr ⟨h2, Or.inr ⟨s, hs, hf⟩⟩⟩
      · rintro ⟨h1, ⟨h2, h3⟩ | ⟨h2, h3 | ⟨s, hs, hf⟩⟩⟩
        · exact ⟨h1, Or.inl ⟨h2, h3⟩⟩
        · exact ⟨h1, Or.inr ⟨h2, hdirtyk.mpr (Or.inl h3)⟩⟩
        · have hsk : s < k := (hwf k hkn).1 s hs
          exact ⟨h1, Or.inr ⟨h2, hdirtyk.mpr (Or.inr ⟨s, hs, hsk, hf⟩)⟩⟩
    refine ⟨?_, ?_, ?_, ?_, ?_⟩
    · -- invoked list
      intro i
      rw [hsplit]
      simp only [List.mem_append]
      rw [Ak]
      constructor
      · rintro (⟨hik, hf⟩ | hmem)
        · exact ⟨by omega, hf⟩
        · have : (evalNode g K ctr k (hostPass g K ctr (List.range k) st).1).2 = true ∧
              i = k := by
            revert hmem
            by_cases he : (evalNode g K ctr k (hostPass g K ctr (List.range k) st).1).2 = true
            · simp [he]
            · simp [he]
          obtain ⟨he, hik⟩ := this
          subst hik
          exact ⟨by omega, hFk.mp he⟩
      · rintro ⟨hik, hf⟩
        by_cases hik2 : i < k
        · exact Or.inl ⟨hik2, hf⟩
        · have : i = k := by omega
          subst this
          right
          rw [if_pos (hFk.mpr hf)]
          simp
    · -- fromDataset preserved
      intro j
      rw [hsplit]
      have := congrFun (evalNode_fromDataset g K ctr k (hostPass g K ctr (List.range k) st).1) j
      rw [this]
      exact Bk j
    · -- dirtiness of not-yet-visited nodes
      intro j hj
      rw [hsplit, evalNode_isDirty]
      have hjk : j ≠ k := by omega
      by_cases he : (evalNode g K ctr k (hostPass g K ctr (List.range k) st).1).2 = true
      · rw [if_pos he, if_neg hjk]
        by_cases hcl : j ∈ clients g k
        · rw [if_pos hcl]
          have hjsrv := (mem_clients g k j).mp hcl
          constructor
          · intro _
            exact Or.inr ⟨k, hjsrv.2, by omega, hFk.mp he⟩
          · intro _; rfl
        · rw [if_neg hcl]
          rw [D1k j (by omega)]
          constructor
          · rintro (hd | ⟨s, hs, hsk, hf⟩)
            · exact Or.inl hd
            · exact Or.inr ⟨s, hs, by omega, hf⟩
          · rintro (hd | ⟨s, hs, hsk, hf⟩)
            · exact Or.inl hd
            · by_cases hsek : s = k
              · subst hsek
                exfalso
                by_cases hjn : j < g.length
                · exact hcl ((mem_clients g s j).mpr ⟨hjn, hs⟩)
                · rw [servers_out_of_range g j (by omega)] at hs
                  simp at hs
              · exact Or.inr ⟨s, hs, by omega, hf⟩
      · rw [if_neg he, D1k j (by omega)]
        constructor
        · rintro (hd | ⟨s, hs, hsk, hf⟩)
          · exact Or.inl hd
          · exact Or.inr ⟨s, hs, by omega, hf⟩
        · rintro (hd | ⟨s, hs, hsk, hf⟩)
          · exact Or.inl hd
          · by_cases hsek : s = k
            · subst hsek
              exact absurd (hFk.mpr hf) he
            · exact Or.inr ⟨s, hs, by omega, hf⟩
    · -- lastSetValCount of not-yet-visited nodes
      intro j hj
      rw [hsplit, evalNode_lastSet]
      have hjk : ¬ (j = k ∧
          (evalNode g K ctr k (hostPass g K ctr (List.range k) st).1).2 = true ∧
          (nodeAt g k).isVariable = true) := by
        rintro ⟨h, _, _⟩; omega
      rw [if_neg hjk]
      exact D2k j (by omega)
    · -- visited nodes are clean
      intro j hj hds
      by_cases hjk : j < k
      · obtain ⟨Ev, Ed⟩ := Ek j hjk hds
        constructor
        · intro hvar
          rw [hsplit, evalNode_lastSet, if_neg (by rintro ⟨h, _, _⟩; omega)]
          exact Ev hvar
        · intro hvar
          rw [hsplit, evalNode_isDirty]
          have hjken : j ≠ k := by omega
          by_cases he : (evalNode g K ctr k (hostPass g K ctr (List.range k) st).1).2 = true
          · rw [if_pos he, if_neg hjken]
            have hcl : j ∉ clients g k := by
              intro hcl
              have := (mem_clients g k j).mp hcl
              have hkj : k < j := (hwf j (by omega)).1 k this.2
              omega
            rw [if_neg hcl]
            exact Ed hvar
          · rw [if_neg he]
            exact Ed hvar
      · have hjek : j = k := by omega
        subst hjek
        constructor
        · intro hvar
          rw [hsplit, evalNode_lastSet]
          by_cases he : (evalNode g K ctr j (hostPass g K ctr (List.range j) st).1).2 = true
          · rw [if_pos ⟨rfl, he, hvar⟩]
          · rw [if_neg (by rintro ⟨_, h, _⟩; exact he h)]
            have hninv := he
            rw [evalNode_invoked, hdsk, hlsk] at hninv
            have : ¬ (st.lastSetValCount j ≠ some (ctr j)) := by
              intro hne
              exact hninv ⟨hds, Or.inl ⟨hvar, hne⟩⟩
            push_neg at this
            rw [hlsk]
            exact this
        · intro hvar
          rw [hsplit, evalNode_isDirty]
          by_cases he : (evalNode g K ctr j (hostPass g K ctr (List.range j) st).1).2 = true
          · rw [if_pos he, if_pos rfl]
          · rw [if_neg he]
            have hninv := he
            rw [evalNode_invoked, hdsk] at hninv
            have : ¬ ((hostPass g K ctr (List.range j) st).1.isDirty j = true) := by
              intro hd
              exact hninv ⟨hds, Or.inr ⟨hvar, hd⟩⟩
            revert this
            cases (hostPass g K ctr (List.range j) st).1.isDirty j <;> simp

/-- Relation stating that `p` is a transitive value server of `i`: there is a non-empty chain of
server edges from `p` up to `i`. -/
def IsTransServer (g : Graph) : Nat → Nat → Prop :=
  Relation.TransGen (fun a b => a ∈ (nodeAt g b).servers)

/-- The data-model invariants of the spec on leaves, relative to the current
dataset binding: dataset-bound nodes and parameter leaves are leaves (no
value servers), and `isVariable` and `fromDataset` exclude each other
(spec section 3, invariant 3). -/
def LeafConsistent (g : Graph) (st : EngineState) : Prop :=
  ∀ i < g.length,
    (st.fromDataset i = true → (nodeAt g i).servers = []) ∧
    ((nodeAt g i).isVariable = true → (nodeAt g i).servers = []) ∧
    ¬ (st.fromDataset i = true ∧ (nodeAt g i).isVariable = true)

instance (g : Graph) (st : EngineState) : Decidable (LeafConsistent g st) := by
  unfold LeafConsistent
  infer_instance

/-- The state a CPU-mode evaluation with counters `ctr` leaves behind: every
non-dataset variable has its counter cached, every non-dataset derived node is
clean. -/
def CleanFor (g : Graph) (st : EngineState) (ctr : Nat → Nat) : Prop :=
  ∀ i < g.length, st.fromDataset i = false →
    ((nodeAt g i).isVariable = true → st.lastSetValCount i = some (ctr i)) ∧
    ((nodeAt g i).isVariable = false → st.isDirty i = false)

lemma fires_imp_reach (g : Graph) (st : EngineState) (ctrOld ctrNew : Nat → Nat)
    (hwf : Wellformed g) (hclean : CleanFor g st ctrOld) :
    ∀ i, Fires g st ctrNew i → i < g.length →
      st.fromDataset i = false ∧
        (((nodeAt g i).isVariable = true ∧ ctrNew i ≠ ctrOld i) ∨
         ((nodeAt g i).isVariable = false ∧
           ∃ p, IsTransServer g p i ∧ (nodeAt g p).isVariable = true ∧
             ctrNew p ≠ ctrOld p)) := by
  intro i h
  induction h with
  | var i h1 h2 h3 =>
    intro hn
    refine ⟨h1, Or.inl ⟨h2, ?_⟩⟩
    have hcache := (hclean i hn h1).1 h2
    intro heq
    rw [hcache, heq] at h3
    exact h3 rfl
  | stale i h1 h2 h3 =>
    intro hn
    have := (hclean i hn h1).2 h2
    rw [this] at h3
    exact absurd h3 (by simp)
  | client i s h1 h2 hs hf ih =>
    intro hn
    have hsn : s < g.length := by
      have := (hwf i hn).1 s hs
      omega
    rcases (ih hsn).2 with ⟨hvp, hch⟩ | ⟨hvp, p, hp, hpvar, hpch⟩
    · exact ⟨h1, Or.inr ⟨h2, s, Relation.TransGen.single hs, hvp, hch⟩⟩
    · exact ⟨h1, Or.inr ⟨h2, p, Relation.TransGen.tail hp hs, hpvar, hpch⟩⟩

lemma transGen_has_server (g : Graph) (p b : Nat) (h : IsTransServer g p b) :
    ∃ c, c ∈ (nodeAt g b).servers := by
  cases h with
  | single hr => exact ⟨p, hr⟩
  | tail hpath hr => exact ⟨_, hr⟩

lemma reach_fires (g : Graph) (st : EngineState) (ctrOld ctrNew : Nat → Nat)
    (hwf : Wellformed g) (hleaf : LeafConsistent g st) (hclean : CleanFor g st ctrOld) :
    ∀ p i, IsTransServer g p i →
      (nodeAt g p).isVariable = true → ctrNew p ≠ ctrOld p →
      i < g.length → st.fromDataset i = false → (nodeAt g i).isVariable = false →
      Fires g st ctrNew i := by
  intro p i htrans
  induction htrans with
  | single hr =>
    rename_i b
    intro hpvar hpch hn hds hvar
    have hpn : p < g.length := by
      have := (hwf b hn).1 p hr
      omega
    have hpds : st.fromDataset p = false := by
      by_cases h : st.fromDataset p = true
      · exact absurd ⟨h, hpvar⟩ (hleaf p hpn).2.2
      · revert h; cases st.fromDataset p <;> simp
    have hpls : st.lastSetValCount p = some (ctrOld p) := (hclean p hpn hpds).1 hpvar
    refine Fires.client b p hds hvar hr (Fires.var p hpds hpvar ?_)
    rw [hpls]
    intro hcontra
    exact hpch (Option.some_injective _ hcontra).symm
  | tail hpath hr ih =>
    rename_i b c
    intro hpvar hpch hn hds hvar
    have hbn : b < g.length := by
      have := (hwf c hn).1 b hr
      omega
    obtain ⟨q, hq⟩ := transGen_has_server g p b hpath
    have hbvar : (nodeAt g b).isVariable = false := by
      by_cases h : (nodeAt g b).isVariable = true
      · have := (hleaf b hbn).2.1 h
        rw [this] at hq
        simp at hq
      · revert h; cases (nodeAt g b).isVariable <;> simp
    have hbds : st.fromDataset b = false := by
      by_cases h : st.fromDataset b = true
      · have := (hleaf b hbn).1 h
        rw [this] at hq
        simp at hq
      · revert h; cases st.fromDataset b <;> simp
    exact Fires.client c b hds hvar hr (ih hpvar hpch hbn hbds hbvar)

lemma fires_iff_reach (g : Graph) (st : EngineState) (ctrOld ctrNew : Nat → Nat)
    (hwf : Wellformed g) (hleaf : LeafConsistent g st) (hclean : CleanFor g st ctrOld)
    (i : Nat) (hn : i < g.length) :
    Fires g st ctrNew i ↔
      st.fromDataset i = false ∧
        (((nodeAt g i).isVariable = true ∧ ctrNew i ≠ ctrOld i) ∨
         ((nodeAt g i).isVariable = false ∧
           ∃ p, IsTransServer g p i ∧ (nodeAt g p).isVariable = true ∧
             ctrNew p ≠ ctrOld p)) := by
  constructor
  · intro h
    exact fires_imp_reach g st ctrOld ctrNew hwf hclean i h hn
  · rintro ⟨hds, ⟨hvar, hch⟩ | ⟨hvar, p, hp, hpvar, hpch⟩⟩
    · refine Fires.var i hds hvar ?_
      rw [(hclean i hn hds).1 hvar]
      intro hcontra
      exact hch (Option.some_injective _ hcontra).symm
    · exact reach_fires g st ctrOld ctrNew hwf hleaf hclean p i hp hpvar hpch hn hds hvar

lemma getVal_clean (g : Graph) (K : Kernel) (ctr : Nat → Nat) (st : EngineState)
    (hwf : Wellformed g) : CleanFor g (getVal g K ctr st).1 ctr := by
  intro i hi hds
  obtain ⟨_, Bn, _, _, En⟩ := hostPass_master g K ctr st hwf g.length (le_refl _)
  have hds0 : st.fromDataset i = false := by
    have := Bn i
    rw [getVal] at hds
    rw [← this]
    exact hds
  exact En i hi hds0

lemma getVal_fromDataset (g : Graph) (K : Kernel) (ctr : Nat → Nat) (st : EngineState)
    (hwf : Wellformed g) (j : Nat) :
    (getVal g K ctr st).1.fromDataset j = st.fromDataset j := by
  obtain ⟨_, Bn, _, _, _⟩ := hostPass_master g K ctr st hwf g.length (le_refl _)
  exact Bn j

/-- C1: in CPU (host) mode, across two consecutive evaluations with no
`setData` in between, the kernel of a non-dataset derived node is invoked on the
second evaluation exactly when some parameter leaf among its transitive value
servers changed its `valueResetCounter` between the two evaluations, and a
parameter leaf itself recomputes exactly when its own counter changed. -/
theorem c1_host_dirty_minimality (g : Graph) (K1 K2 : Kernel) (ctrK ctrK1 : Nat → Nat)
    (st0 : EngineState) (hwf : Wellformed g) (hleaf : LeafConsistent g st0) :
    ∀ i < g.length,
      (i ∈ (getVal g K2 ctrK1 (getVal g K1 ctrK st0).1).2.1 ↔
        st0.fromDataset i = false ∧
          (((nodeAt g i).isVariable = true ∧ ctrK1 i ≠ ctrK i) ∨
           ((nodeAt g i).isVariable = false ∧
             ∃ p, IsTransServer g p i ∧ (nodeAt g p).isVariable = true ∧
               ctrK1 p ≠ ctrK p))) := by
  intro i hi
  have hclean : CleanFor g (getVal g K1 ctrK st0).1 ctrK := getVal_clean g K1 ctrK st0 hwf
  have hleaf1 : LeafConsistent g (getVal g K1 ctrK st0).1 := by
    intro j hj
    obtain ⟨h1, h2, h3⟩ := hleaf j hj
    rw [getVal_fromDataset g K1 ctrK st0 hwf j]
    exact ⟨h1, h2, h3⟩
  obtain ⟨An, _, _, _, _⟩ :=
    hostPass_master g K2 ctrK1 (getVal g K1 ctrK st0).1 hwf g.length (le_refl _)
  have hmem : i ∈ (getVal g K2 ctrK1 (getVal g K1 ctrK st0).1).2.1 ↔
      (i < g.length ∧ Fires g (getVal g K1 ctrK st0).1 ctrK1 i) := An i
  rw [hmem]
  rw [fires_iff_reach g (getVal g K1 ctrK st0).1 ctrK ctrK1 hwf hleaf1 hclean i hi]
  rw [getVal_fromDataset g K1 ctrK st0 hwf i]
  constructor
  · rintro ⟨_, h⟩; exact h
  · intro h; exact ⟨hi, h⟩

/-- Concrete instantiation of `c1_host_dirty_minimality`: a variable feeding
a derived top node. -/
theorem c1_host_dirty_minimality_witness :
    let g : Graph := [{ name := "a", servers := [], isVariable := true, isCategory := false,
                        isReducer := false, cudaCapable := false },
                      { name := "f", servers := [0], isVariable := false, isCategory := false,
                        isReducer := false, cudaCapable := false }]
    let st0 : EngineState :=
      { fromDataset := fun _ => false, isDirty := fun _ => true,
        lastSetValCount := fun _ => none, hasBuffer := fun _ => false,
        outputSize := fun _ => 1, copyAfterEvaluation := fun _ => false,
        remServers := fun _ => 0, remClients := fun _ => 0,
        dmCPU := fun _ => none, dmCUDA := fun _ => none }
    Wellformed g ∧ LeafConsistent g st0 ∧
      ∀ i < g.length,
        (i ∈ (getVal g (fun _ _ => [2]) (fun _ => 5)
            (getVal g (fun _ _ => [1]) (fun _ => 4) st0).1).2.1 ↔
          st0.fromDataset i = false ∧
            (((nodeAt g i).isVariable = true ∧ (fun _ => 5) i ≠ (fun _ => 4) i) ∨
             ((nodeAt g i).isVariable = false ∧
               ∃ p, IsTransServer g p i ∧ (nodeAt g p).isVariable = true ∧
                 (fun _ => 5) p ≠ (fun _ => 4) p))) :=
  ⟨by decide, by decide,
    c1_host_dirty_minimality _ _ _ _ _ _ (by decide) (by decide)⟩

lemma hostPass_clean_id (g : Graph) (K : Kernel) (ctr : Nat → Nat) (st : EngineState)
    (hclean : CleanFor g st ctr) :
    ∀ l, (∀ i ∈ l, i < g.length) → hostPass g K ctr l st = (st, []) := by
  intro l
  induction l with
  | nil => intro _; rfl
  | cons a t ih =>
    intro hb
    have han : a < g.length := hb a (List.mem_cons_self _ _)
    have hid : evalNode g K ctr a st = (st, false) := by
      rw [evalNode]
      by_cases hds : st.fromDataset a = true
      · rw [if_pos hds]
      · rw [if_neg hds]
        have hds2 : st.fromDataset a = false := by
          revert hds; cases st.fromDataset a <;> simp
        by_cases hvar : (nodeAt g a).isVariable = true
        · rw [if_pos hvar, processVariable]
          have := (hclean a han hds2).1 hvar
          rw [if_neg (by rw [this]; simp)]
        · rw [if_neg hvar]
          have hvar2 : (nodeAt g a).isVariable = false := by
            revert hvar; cases (nodeAt g a).isVariable <;> simp
          have := (hclean a han hds2).2 hvar2
          rw [if_neg (by rw [this]; simp)]
    rw [hostPass, hid]
    have := ih (fun i hi => hb i (List.mem_cons_of_mem _ hi))
    simp only [this]
    simp

/-- C2: after `setData`, two CPU-mode `getVal` calls with unchanged parameter
counters give the same scalar result, the second call invokes no kernels at
all (derived-node kernels included), and indeed leaves the engine state
untouched. -/
theorem c2_second_eval_cached (g : Graph) (K : Kernel) (ctr : Nat → Nat)
    (spans : List (String × List Int)) (sizes : Nat → Nat) (st0 : EngineState)
    (hwf : Wellformed g) :
    (getVal g K ctr (getVal g K ctr (setData false g spans sizes st0).1).1).2.1 = [] ∧
    (getVal g K ctr (getVal g K ctr (setData false g spans sizes st0).1).1).2.2 =
      (getVal g K ctr (setData false g spans sizes st0).1).2.2 ∧
    (getVal g K ctr (getVal g K ctr (setData false g spans sizes st0).1).1).1 =
      (getVal g K ctr (setData false g spans sizes st0).1).1 := by
  have hclean : CleanFor g (getVal g K ctr (setData false g spans sizes st0).1).1 ctr :=
    getVal_clean g K ctr (setData false g spans sizes st0).1 hwf
  have hid := hostPass_clean_id g K ctr (getVal g K ctr (setData false g spans sizes st0).1).1
    hclean (List.range g.length) (fun i hi => List.mem_range.mp hi)
  constructor
  · show (hostPass g K ctr (List.range g.length)
      (getVal g K ctr (setData false g spans sizes st0).1).1).2 = []
    rw [hid]
  constructor
  · show ((hostPass g K ctr (List.range g.length)
        (getVal g K ctr (setData false g spans sizes st0).1).1).1.dmCPU
          (g.length - 1)).bind (fun v => v.head?) = _
    rw [hid]
    rfl
  · show (hostPass g K ctr (List.range g.length)
      (getVal g K ctr (setData false g spans sizes st0).1).1).1 = _
    rw [hid]

/-- Concrete instantiation of `c2_second_eval_cached`: a dataset column, a
variable and a derived top node. -/
theorem c2_second_eval_cached_witness :
    let g : Graph := [{ name := "x", servers := [], isVariable := false, isCategory := false,
                        isReducer := false, cudaCapable := false },
                      { name := "a", servers := [], isVariable := true, isCategory := false,
                        isReducer := false, cudaCapable := false },
                      { name := "f", servers := [0, 1], isVariable := false, isCategory := false,
                        isReducer := false, cudaCapable := false }]
    let st0 : EngineState :=
      { fromDataset := fun _ => false, isDirty := fun _ => true,
        lastSetValCount := fun _ => none, hasBuffer := fun _ => false,
        outputSize := fun _ => 1, copyAfterEvaluation := fun _ => false,
        remServers := fun _ => 0, remClients := fun _ => 0,
        dmCPU := fun _ => none, dmCUDA := fun _ => none }
    Wellformed g ∧
      ((getVal g (fun _ _ => [3]) (fun _ => 1)
          (getVal g (fun _ _ => [3]) (fun _ => 1)
            (setData false g [("x", [7])] (fun _ => 1) st0).1).1).2.1 = [] ∧
       (getVal g (fun _ _ => [3]) (fun _ => 1)
          (getVal g (fun _ _ => [3]) (fun _ => 1)
            (setData false g [("x", [7])] (fun _ => 1) st0).1).1).2.2 =
        (getVal g (fun _ _ => [3]) (fun _ => 1)
          (setData false g [("x", [7])] (fun _ => 1) st0).1).2.2 ∧
       (getVal g (fun _ _ => [3]) (fun _ => 1)
          (getVal g (fun _ _ => [3]) (fun _ => 1)
            (setData false g [("x", [7])] (fun _ => 1) st0).1).1).1 =
        (getVal g (fun _ _ => [3]) (fun _ => 1)
          (setData false g [("x", [7])] (fun _ => 1) st0).1).1) :=
  ⟨by decide, c2_second_eval_cached _ _ _ _ _ _ (by decide)⟩

/-- State threaded through `getValHeterogeneous`: the engine state plus the
log of host kernel invocations (`computeBatch` calls made by
`computeCPUNode`) and of nodes assigned to the GPU (each `assignToGPU` call
launches the CUDA kernel of that node). -/
structure HetState where
  es : EngineState
  cpuComputed : List Nat
  gpuAssigned : List Nat

/-- Mirror of `RooFitDriver::assignToGPU`: mark the node in flight
(`remServers = -1`), wait on the server events on the stream of the node
(pure stream ordering, no
state change here), acquire the output buffer (inline scalar, or pooled
device/pinned buffer), publish the span into the device map, launch the CUDA
kernel and record the event of the node; with `copyAfterEvaluation` (and for the
scalar buffer, which is host memory) the span is also published into the
host map. -/
def assignToGPU (g : Graph) (K : Kernel) (i : Nat) (s : HetState) : HetState :=
  let es := s.es
  let nOut := es.outputSize i
  let v := K i (inputSpans g es.dmCUDA i)
  let hb := if nOut = 1 then es.hasBuffer i else true
  let cpuPublish := decide (nOut = 1) || es.copyAfterEvaluation i
  { es := { es with
      remServers := Function.update es.remServers i (-1),
      hasBuffer := Function.update es.hasBuffer i hb,
      dmCUDA := Function.update es.dmCUDA i (some v),
      dmCPU := if cpuPublish = true then Function.update es.dmCPU i (some v) else es.dmCPU },
    cpuComputed := s.cpuComputed,
    gpuAssigned := s.gpuAssigned ++ [i] }

/-- One client countdown: decrement the `remServers` count of the client and assign it
when it becomes ready (`remServers == 0`) and is GPU-placed. -/
def decrementStep (g : Graph) (K : Kernel) (s : HetState) (j : Nat) : HetState :=
  let r := s.es.remServers j - 1
  let s1 : HetState :=
    { s with es := { s.es with remServers := Function.update s.es.remServers j r } }
  if r = 0 ∧ computeInGPU g s1.es.outputSize j = true then assignToGPU g K j s1 else s1

/-- The client-countdown loop shared by both retirement paths of the
scheduler. -/
def decrementClients (g : Graph) (K : Kernel) (cs : List Nat) (s : HetState) : HetState :=
  cs.foldl (decrementStep g K) s

/-- The server-countdown loop shared by both retirement paths: decrement
`remClients` of each server of the retired node and release the pooled
buffer of the server once no client still needs it. -/
def releaseServers (ss : List Nat) (s : HetState) : HetState :=
  ss.foldl
    (fun s j =>
      let r := s.es.remClients j - 1
      let hb := if r = 0 then false else s.es.hasBuffer j
      { s with es := { s.es with
          remClients := Function.update s.es.remClients j r,
          hasBuffer := Function.update s.es.hasBuffer j hb } })
    s

/-- Retirement of a finished GPU node inside the drain scan of
`getValHeterogeneous`: `remServers = -2`, then the client/server countdowns. -/
def finishGPUNode (g : Graph) (K : Kernel) (i : Nat) (s : HetState) : HetState :=
  let s1 : HetState :=
    { s with es := { s.es with remServers := Function.update s.es.remServers i (-2) } }
  let s2 := decrementClients g K (clients g i) s1
  releaseServers (nodeAt g i).servers s2

/-- One iteration of the drain scan: retire node `i` when it is in flight
and its stream reports idle. -/
def drainStep (g : Graph) (K : Kernel) (idle : Nat → Bool) (s : HetState) (i : Nat) : HetState :=
  if s.es.remServers i = -1 ∧ idle i = true then finishGPUNode g K i s else s

/-- The drain scan of `getValHeterogeneous`: retire every in-flight GPU node
whose stream reports idle (`idle` is the oracle for `CudaStream::isActive`). -/
def drainFinished (g : Graph) (K : Kernel) (idle : Nat → Bool) (s : HetState) : HetState :=
  (List.range g.length).foldl (drainStep g K idle) s

/-- The CPU-node selection of `getValHeterogeneous`: the first node in
topological order with all servers issued and host placement. -/
def findCPUNode (g : Graph) (es : EngineState) : Option Nat :=
  (List.range g.length).find?
    (fun i => decide (es.remServers i = 0) && !(computeInGPU g es.outputSize i))

/-- The host-execution branch of the scheduler loop: mark the node retired
(so it is not picked again), run its host kernel unless it is dataset-bound,
then the client/server countdowns. -/
def computeCPUNodeHet (g : Graph) (K : Kernel) (i : Nat) (s : HetState) : HetState :=
  let s1 : HetState :=
    { s with es := { s.es with remServers := Function.update s.es.remServers i (-2) } }
  let s2 : HetState :=
    if s1.es.fromDataset i = true then s1
    else { s1 with es := computeCPUNode true g K i s1.es,
                   cpuComputed := s1.cpuComputed ++ [i] }
  let s3 := decrementClients g K (clients g i) s2
  releaseServers (nodeAt g i).servers s3

/-- The scheduling loop of `getValHeterogeneous`, with explicit fuel (the
loop itself runs until the top node retires; running out of fuel models an
evaluation still in progress).  Each iteration drains finished GPU work,
then either runs one host node or sleeps for a millisecond. -/
def getValHetLoop (g : Graph) (K : Kernel) (idle : Nat → Nat → Bool) :
    Nat → Nat → HetState → HetState
  | 0, _, s => s
  | fuel + 1, iter, s =>
    if s.es.remServers (g.length - 1) = -2 then s
    else
      let s1 := drainFinished g K (idle iter) s
      match findCPUNode g s1.es with
      | none => getValHetLoop g K idle fuel (iter + 1) s1
      | some i => getValHetLoop g K idle fuel (iter + 1) (computeCPUNodeHet g K i s1)

/-- The initialization of `getValHeterogeneous`: per node, `remClients` and
`remServers` are reset to the edge counts and the pooled buffer dropped. -/
def hetInitState (g : Graph) (es : EngineState) : EngineState :=
  { es with
    remServers := fun i =>
      if i < g.length then ((nodeAt g i).servers.length : Int) else es.remServers i,
    remClients := fun i =>
      if i < g.length then ((clients g i).length : Int) else es.remClients i,
    hasBuffer := fun i => if i < g.length then false else es.hasBuffer i }

/-- One iteration of the initial pass: assign node `i` to the GPU when it has
no server dependencies and is GPU-placed. -/
def initAssignStep (g : Graph) (K : Kernel) (s : HetState) (i : Nat) : HetState :=
  if s.es.remServers i = 0 ∧ computeInGPU g s.es.outputSize i = true
  then assignToGPU g K i s else s

/-- The initial pass of `getValHeterogeneous`: assign every GPU-placed node
with no pending servers. -/
def initialGPUAssign (g : Graph) (K : Kernel) (s : HetState) : HetState :=
  (List.range g.length).foldl (initAssignStep g K) s

/-- Mirror of `RooFitDriver::getValHeterogeneous`: initialize the countdowns, assign
the initial GPU nodes, run the scheduling loop, and return the first element
of the host span of the top node.  The boolean records whether the loop exit
condition (`topNodeInfo.remServers == -2`) was reached. -/
def getValHeterogeneous (g : Graph) (K : Kernel) (idle : Nat → Nat → Bool) (fuel : Nat)
    (es : EngineState) : HetState × Option Int × Bool :=
  let s0 : HetState := ⟨hetInitState g es, [], []⟩
  let s1 := initialGPUAssign g K s0
  let sF := getValHetLoop g K idle fuel 0 s1
  (sF, (sF.es.dmCPU (g.length - 1)).bind (fun v => v.head?),
    decide (sF.es.remServers (g.length - 1) = -2))

lemma releaseServers_frame (ss : List Nat) :
    ∀ s : HetState,
      (releaseServers ss s).es.remServers = s.es.remServers ∧
      (releaseServers ss s).es.fromDataset = s.es.fromDataset ∧
      (releaseServers ss s).es.outputSize = s.es.outputSize ∧
      (releaseServers ss s).cpuComputed = s.cpuComputed ∧
      (releaseServers ss s).gpuAssigned = s.gpuAssigned := by
  induction ss with
  | nil => intro s; exact ⟨rfl, rfl, rfl, rfl, rfl⟩
  | cons a t ih =>
    intro s
    simpa [releaseServers, List.foldl_cons] using ih _

/-- Number of servers of node `i` not yet retired (`remServers ≠ -2`). -/
def pendingServers (g : Graph) (rs : Nat → Int) (i : Nat) : Nat :=
  ((nodeAt g i).servers.filter (fun x => decide (rs x ≠ -2))).length

/-- The scheduler invariant of `getValHeterogeneous` (spec section 3,
invariant 6): a node still waiting (`remServers ≥ 0`) counts exactly its
unretired servers; a node in flight or retired (`remServers < 0`) has all
servers retired; a node in flight or retired is dataset-bound or had its
kernel launched (host log or GPU log); and every GPU-assigned node is
GPU-placed. -/
def SchedInv (g : Graph) (s : HetState) : Prop :=
  (∀ i < g.length,
    (0 ≤ s.es.remServers i →
      s.es.remServers i = (pendingServers g s.es.remServers i : Int)) ∧
    (s.es.remServers i < 0 → ∀ x ∈ (nodeAt g i).servers, s.es.remServers x = -2) ∧
    (s.es.remServers i < 0 →
      s.es.fromDataset i = true ∨ i ∈ s.cpuComputed ∨ i ∈ s.gpuAssigned)) ∧
  (∀ j ∈ s.gpuAssigned, computeInGPU g s.es.outputSize j = true)

lemma pendingServers_congr (g : Graph) (rs1 rs2 : Nat → Int) (i : Nat)
    (h : ∀ x ∈ (nodeAt g i).servers, (rs1 x = -2 ↔ rs2 x = -2)) :
    pendingServers g rs1 i = pendingServers g rs2 i := by
  rw [pendingServers, pendingServers, List.filter_congr]
  intro x hx
  have := h x hx
  by_cases h2 : rs1 x = -2
  · simp [h2, this.mp h2]
  · have h3 : ¬ rs2 x = -2 := fun hc => h2 (this.mpr hc)
    simp [h2, h3]

lemma pendingServers_update_notmem (g : Graph) (rs : Nat → Int) (i0 : Nat) (v : Int)
    (i : Nat) (h : i0 ∉ (nodeAt g i).servers) :
    pendingServers g (Function.update rs i0 v) i = pendingServers g rs i := by
  rw [pendingServers, pendingServers, List.filter_congr]
  intro x hx
  have hxi : x ≠ i0 := fun hc => h (hc ▸ hx)
  rw [Function.update_noteq hxi]

lemma pendingServers_update_keep (g : Graph) (rs : Nat → Int) (i0 : Nat) (v : Int)
    (hv : (rs i0 = -2 ↔ v = -2)) (i : Nat) :
    pendingServers g (Function.update rs i0 v) i = pendingServers g rs i := by
  apply pendingServers_congr
  intro x _
  by_cases hx : x = i0
  · subst hx
    rw [Function.update_same]
    exact hv.symm
  · rw [Function.update_noteq hx]

lemma filter_length_retire (l : List Nat) :
    ∀ (hnd : l.Nodup) (i0 : Nat) (hi : i0 ∈ l) (rs : Nat → Int) (hne : rs i0 ≠ -2),
      (l.filter (fun x => decide (Function.update rs i0 (-2 : Int) x ≠ -2))).length + 1 =
        (l.filter (fun x => decide (rs x ≠ -2))).length := by
  induction l with
  | nil => intro _ i0 hi; simp at hi
  | cons a t ih =>
    intro hnd i0 hi rs hne
    rw [List.nodup_cons] at hnd
    rcases List.mem_cons.mp hi with hai | hit
    · subst hai
      have hat : i0 ∉ t := hnd.1
      have hcong : t.filter (fun x => decide (Function.update rs i0 (-2 : Int) x ≠ -2)) =
          t.filter (fun x => decide (rs x ≠ -2)) := by
        apply List.filter_congr
        intro x hx
        have hxa : x ≠ i0 := fun hc => hat (hc ▸ hx)
        rw [Function.update_noteq hxa]
      have hpa : decide (Function.update rs i0 (-2 : Int) i0 ≠ -2) = false := by
        simp [Function.update_same]
      have hpa2 : decide (rs i0 ≠ -2) = true := by simp [hne]
      rw [List.filter_cons, List.filter_cons, hpa, hpa2, if_neg (by simp), if_pos rfl, hcong]
      simp
    · by_cases haa : a = i0
      · rw [haa] at hnd
        exact absurd hit hnd.1
      · have hpa : decide (Function.update rs i0 (-2 : Int) a ≠ -2) =
            decide (rs a ≠ -2) := by
          rw [Function.update_noteq haa]
        rw [List.filter_cons, List.filter_cons]
        by_cases hav : decide (rs a ≠ -2) = true
        · rw [if_pos (by rw [hpa]; exact hav), if_pos hav]
          simp only [List.length_cons]
          have := ih hnd.2 i0 hit rs hne
          omega
        · rw [if_neg (by rw [hpa]; exact hav), if_neg hav]
          exact ih hnd.2 i0 hit rs hne

lemma pendingServers_retire (g : Graph) (rs : Nat → Int) (i0 i : Nat)
    (hnd : (nodeAt g i).servers.Nodup) (hi : i0 ∈ (nodeAt g i).servers)
    (hne : rs i0 ≠ -2) :
    pendingServers g (Function.update rs i0 (-2)) i + 1 = pendingServers g rs i :=
  filter_length_retire (nodeAt g i).servers hnd i0 hi rs hne

lemma pendingServers_zero (g : Graph) (rs : Nat → Int) (i : Nat)
    (h : pendingServers g rs i = 0) :
    ∀ x ∈ (nodeAt g i).servers, rs x = -2 := by
  intro x hx
  rw [pendingServers, List.length_eq_zero] at h
  by_cases hc : rs x = -2
  · exact hc
  · exfalso
    have : x ∈ (nodeAt g i).servers.filter (fun x => decide (rs x ≠ -2)) := by
      rw [List.mem_filter]
      exact ⟨hx, by simp [hc]⟩
    rw [h] at this
    simp at this

lemma pendingServers_full (g : Graph) (rs : Nat → Int) (i : Nat)
    (h : ∀ x ∈ (nodeAt g i).servers, rs x ≠ -2) :
    pendingServers g rs i = (nodeAt g i).servers.length := by
  rw [pendingServers]
  have : (nodeAt g i).servers.filter (fun x => decide (rs x ≠ -2)) =
      (nodeAt g i).servers := by
    apply List.filter_eq_self.mpr
    intro x hx
    simp [h x hx]
  rw [this]

lemma assignToGPU_es_remServers (g : Graph) (K : Kernel) (i : Nat) (s : HetState) :
    (assignToGPU g K i s).es.remServers = Function.update s.es.remServers i (-1) := rfl

lemma assignToGPU_frame (g : Graph) (K : Kernel) (i : Nat) (s : HetState) :
    (assignToGPU g K i s).es.fromDataset = s.es.fromDataset ∧
    (assignToGPU g K i s).es.outputSize = s.es.outputSize ∧
    (assignToGPU g K i s).cpuComputed = s.cpuComputed ∧
    (assignToGPU g K i s).gpuAssigned = s.gpuAssigned ++ [i] :=
  ⟨rfl, rfl, rfl, rfl⟩

lemma assign_preserves (g : Graph) (K : Kernel) (hwf : Wellformed g) (i : Nat)
    (hn : i < g.length) (s : HetState) (hInv : SchedInv g s)
    (hrem : s.es.remServers i = 0)
    (hgpu : computeInGPU g s.es.outputSize i = true) :
    SchedInv g (assignToGPU g K i s) := by
  obtain ⟨hclauses, hlog⟩ := hInv
  have hkeep : ∀ j, pendingServers g (Function.update s.es.remServers i (-1)) j =
      pendingServers g s.es.remServers j := by
    intro j
    apply pendingServers_update_keep
    rw [hrem]
    constructor
    · intro h; exact absurd h (by decide)
    · intro h; exact absurd h (by decide)
  constructor
  · intro j hj
    rw [assignToGPU_es_remServers]
    by_cases hji : j = i
    · subst hji
      rw [Function.update_same]
      refine ⟨fun h => absurd h (by decide), fun _ => ?_, fun _ => ?_⟩
      · intro x hx
        have hpend : pendingServers g s.es.remServers j = 0 := by
          have := (hclauses j hj).1 (by rw [hrem])
          rw [hrem] at this
          omega
        have hx2 := pendingServers_zero g s.es.remServers j hpend x hx
        have hxj : x ≠ j := by
          intro hc
          rw [hc, hrem] at hx2
          exact absurd hx2 (by decide)
        rw [Function.update_noteq hxj]
        exact hx2
      · right; right
        rw [(assignToGPU_frame g K j s).2.2.2]
        simp
    · rw [Function.update_noteq hji]
      obtain ⟨h1, h2, h3⟩ := hclauses j hj
      refine ⟨?_, ?_, ?_⟩
      · intro hge
        rw [hkeep j]
        exact h1 hge
      · intro hlt x hx
        have hx2 := h2 hlt x hx
        have hxi : x ≠ i := by
          intro hc
          rw [hc, hrem] at hx2
          exact absurd hx2 (by decide)
        rw [Function.update_noteq hxi]
        exact hx2
      · intro hlt
        rcases h3 hlt with hds | hcpu | hgp
        · left
          rw [(assignToGPU_frame g K i s).1]
          exact hds
        · right; left
          rw [(assignToGPU_frame g K i s).2.2.1]
          exact hcpu
        · right; right
          rw [(assignToGPU_frame g K i s).2.2.2]
          exact List.mem_append_left _ hgp
  · intro j hjmem
    rw [(assignToGPU_frame g K i s).2.2.2] at hjmem
    rw [(assignToGPU_frame g K i s).2.1]
    rcases List.mem_append.mp hjmem with hmem | hmem
    · exact hlog j hmem
    · have : j = i := by simpa using hmem
      subst this
      exact hgpu

lemma decrementStep_eq (g : Graph) (K : Kernel) (s : HetState) (j : Nat) :
    decrementStep g K s j =
      (if s.es.remServers j - 1 = 0 ∧ computeInGPU g s.es.outputSize j = true
       then assignToGPU g K j
         { s with es := { s.es with
             remServers := Function.update s.es.remServers j (s.es.remServers j - 1) } }
       else { s with es := { s.es with
             remServers := Function.update s.es.remServers j (s.es.remServers j - 1) } }) := rfl

lemma decrementClients_inv (g : Graph) (K : Kernel) (hwf : Wellformed g) (i0 : Nat) :
    ∀ cs s, cs.Nodup → (∀ j ∈ cs, j < g.length ∧ i0 ∈ (nodeAt g j).servers) →
      s.es.remServers i0 = -2 →
      (∀ j ∈ cs, 1 ≤ s.es.remServers j ∧
          s.es.remServers j = (pendingServers g s.es.remServers j : Int) + 1) →
      (∀ j, j < g.length → j ∉ cs →
        (0 ≤ s.es.remServers j →
          s.es.remServers j = (pendingServers g s.es.remServers j : Int)) ∧
        (s.es.remServers j < 0 → ∀ x ∈ (nodeAt g j).servers, s.es.remServers x = -2) ∧
        (s.es.remServers j < 0 →
          s.es.fromDataset j = true ∨ j ∈ s.cpuComputed ∨ j ∈ s.gpuAssigned)) →
      (∀ j ∈ s.gpuAssigned, computeInGPU g s.es.outputSize j = true) →
      SchedInv g (decrementClients g K cs s) := by
  intro cs
  induction cs with
  | nil =>
    intro s _ _ _ _ hout hlog
    exact ⟨fun j hj => hout j hj (by simp), hlog⟩
  | cons j0 rest ih =>
    intro s hnd hmem hi0 hmid hout hlog
    rw [List.nodup_cons] at hnd
    obtain ⟨hj0n, hj0srv⟩ := hmem j0 (List.mem_cons_self _ _)
    obtain ⟨hge1, heq⟩ := hmid j0 (List.mem_cons_self _ _)
    have hi0j0 : i0 ≠ j0 := by
      have := (hwf j0 hj0n).1 i0 hj0srv
      omega
    have hj0self : j0 ∉ (nodeAt g j0).servers := by
      intro hc
      have := (hwf j0 hj0n).1 j0 hc
      omega
    have hstep : decrementClients g K (j0 :: rest) s =
        decrementClients g K rest (decrementStep g K s j0) := rfl
    rw [hstep, decrementStep_eq]
    have hpend : s.es.remServers j0 - 1 = (pendingServers g s.es.remServers j0 : Int) := by
      omega
    have hrge : 0 ≤ s.es.remServers j0 - 1 := by
      rw [hpend]
      exact Int.natCast_nonneg _
    -- the decremented state
    have hkeep1 : ∀ j,
        pendingServers g
          (Function.update s.es.remServers j0 (s.es.remServers j0 - 1)) j =
        pendingServers g s.es.remServers j := by
      intro j
      apply pendingServers_update_keep
      omega
    by_cases hguard : s.es.remServers j0 - 1 = 0 ∧ computeInGPU g s.es.outputSize j0 = true
    · rw [if_pos hguard]
      have hservers_retired : ∀ x ∈ (nodeAt g j0).servers, s.es.remServers x = -2 := by
        apply pendingServers_zero
        have := hguard.1
        omega
      set t1 : HetState :=
        { s with es := { s.es with
            remServers := Function.update s.es.remServers j0 (s.es.remServers j0 - 1) } }
        with ht1
      have hrem2 : (assignToGPU g K j0 t1).es.remServers =
          Function.update s.es.remServers j0 (-1) := by
        rw [assignToGPU_es_remServers, ht1]
        dsimp only
        rw [Function.update_idem]
      have hds2 : (assignToGPU g K j0 t1).es.fromDataset = s.es.fromDataset := rfl
      have hsz2 : (assignToGPU g K j0 t1).es.outputSize = s.es.outputSize := rfl
      have hcpu2 : (assignToGPU g K j0 t1).cpuComputed = s.cpuComputed := rfl
      have hgpu2 : (assignToGPU g K j0 t1).gpuAssigned = s.gpuAssigned ++ [j0] := rfl
      have hkeep2 : ∀ j, pendingServers g (Function.update s.es.remServers j0 (-1)) j =
          pendingServers g s.es.remServers j := by
        intro j
        apply pendingServers_update_keep
        omega
      apply ih
      · exact hnd.2
      · exact fun j hj => hmem j (List.mem_cons_of_mem _ hj)
      · rw [hrem2, Function.update_noteq hi0j0]
        exact hi0
      · intro j hj
        have hjj0 : j ≠ j0 := fun hc => hnd.1 (hc ▸ hj)
        obtain ⟨h1, h2⟩ := hmid j (List.mem_cons_of_mem _ hj)
        rw [hrem2, Function.update_noteq hjj0, hkeep2 j]
        exact ⟨h1, h2⟩
      · intro j hjn hjrest
        rw [hrem2, hds2, hcpu2, hgpu2]
        by_cases hjj0 : j = j0
        · subst hjj0
          rw [Function.update_same]
          refine ⟨fun h => absurd h (by decide), fun _ x hx => ?_, fun _ => ?_⟩
          · have hx2 := hservers_retired x hx
            have hxj : x ≠ j := fun hc => hj0self (hc ▸ hx)
            rw [Function.update_noteq hxj]
            exact hx2
          · right; right
            simp
        · obtain ⟨h1, h2, h3⟩ := hout j hjn (by
            intro hc
            rcases List.mem_cons.mp hc with hc1 | hc2
            · exact hjj0 hc1
            · exact hjrest hc2)
          rw [Function.update_noteq hjj0]
          refine ⟨?_, ?_, ?_⟩
          · intro hge
            rw [hkeep2 j]
            exact h1 hge
          · intro hlt x hx
            have hx2 := h2 hlt x hx
            have hxj0 : x ≠ j0 := by
              intro hc
              rw [hc] at hx2
              omega
            rw [Function.update_noteq hxj0]
            exact hx2
          · intro hlt
            rcases h3 hlt with hds | hcpu | hgp
            · left; exact hds
            · right; left; exact hcpu
            · right; right
              exact List.mem_append_left _ hgp
      · intro j hjmem
        rw [hgpu2] at hjmem
        rw [hsz2]
        rcases List.mem_append.mp hjmem with hmem2 | hmem2
        · exact hlog j hmem2
        · have : j = j0 := by simpa using hmem2
          subst this
          exact hguard.2
    · rw [if_neg hguard]
      set t1 : HetState :=
        { s with es := { s.es with
            remServers := Function.update s.es.remServers j0 (s.es.remServers j0 - 1) } }
        with ht1
      have hrem2 : t1.es.remServers =
          Function.update s.es.remServers j0 (s.es.remServers j0 - 1) := rfl
      have hds2 : t1.es.fromDataset = s.es.fromDataset := rfl
      have hsz2 : t1.es.outputSize = s.es.outputSize := rfl
      have hcpu2 : t1.cpuComputed = s.cpuComputed := rfl
      have hgpu2 : t1.gpuAssigned = s.gpuAssigned := rfl
      apply ih
      · exact hnd.2
      · exact fun j hj => hmem j (List.mem_cons_of_mem _ hj)
      · rw [hrem2, Function.update_noteq hi0j0]
        exact hi0
      · intro j hj
        have hjj0 : j ≠ j0 := fun hc => hnd.1 (hc ▸ hj)
        obtain ⟨h1, h2⟩ := hmid j (List.mem_cons_of_mem _ hj)
        rw [hrem2, Function.update_noteq hjj0, hkeep1 j]
        exact ⟨h1, h2⟩
      · intro j hjn hjrest
        rw [hrem2, hds2, hcpu2, hgpu2]
        by_cases hjj0 : j = j0
        · subst hjj0
          rw [Function.update_same]
          refine ⟨fun _ => ?_, fun hlt => absurd hlt (by omega), fun hlt => absurd hlt (by omega)⟩
          rw [hkeep1 j]
          exact hpend
        · obtain ⟨h1, h2, h3⟩ := hout j hjn (by
            intro hc
            rcases List.mem_cons.mp hc with hc1 | hc2
            · exact hjj0 hc1
            · exact hjrest hc2)
          rw [Function.update_noteq hjj0]
          refine ⟨?_, ?_, ?_⟩
          · intro hge
            rw [hkeep1 j]
            exact h1 hge
          · intro hlt x hx
            have hx2 := h2 hlt x hx
            have hxj0 : x ≠ j0 := by
              intro hc
              rw [hc] at hx2
              omega
            rw [Function.update_noteq hxj0]
            exact hx2
          · exact h3
      · intro j hjmem
        rw [hgpu2] at hjmem
        rw [hsz2]
        exact hlog j hjmem

lemma releaseServers_preserves (g : Graph) (ss : List Nat) (s : HetState)
    (h : SchedInv g s) : SchedInv g (releaseServers ss s) := by
  obtain ⟨f1, f2, f3, f4, f5⟩ := releaseServers_frame ss s
  obtain ⟨hcl, hlog⟩ := h
  constructor
  · intro i hi
    rw [f1, f2, f4, f5]
    exact hcl i hi
  · intro j hj
    rw [f5] at hj
    rw [f3]
    exact hlog j hj

lemma retire_mid (g : Graph) (hwf : Wellformed g) (i : Nat) (hn : i < g.length)
    (s : HetState) (hInv : SchedInv g s)
    (hrem : s.es.remServers i = 0 ∨ s.es.remServers i = -1) :
    Function.update s.es.remServers i (-2) i = -2 ∧
    (∀ j ∈ clients g i,
      1 ≤ Function.update s.es.remServers i (-2) j ∧
      Function.update s.es.remServers i (-2) j =
        (pendingServers g (Function.update s.es.remServers i (-2)) j : Int) + 1) ∧
    (∀ j, j < g.length → j ∉ clients g i →
      (0 ≤ Function.update s.es.remServers i (-2) j →
        Function.update s.es.remServers i (-2) j =
          (pendingServers g (Function.update s.es.remServers i (-2)) j : Int)) ∧
      (Function.update s.es.remServers i (-2) j < 0 →
        ∀ x ∈ (nodeAt g j).servers, Function.update s.es.remServers i (-2) x = -2) ∧
      (Function.update s.es.remServers i (-2) j < 0 →
        s.es.fromDataset j = true ∨ j ∈ s.cpuComputed ∨ j ∈ s.gpuAssigned ∨ j = i)) := by
  obtain ⟨hcl, _⟩ := hInv
  have hretired_servers : ∀ x ∈ (nodeAt g i).servers, s.es.remServers x = -2 := by
    rcases hrem with h0 | h1
    · apply pendingServers_zero
      have := (hcl i hn).1 (by omega)
      omega
    · exact (hcl i hn).2.1 (by omega)
  refine ⟨Function.update_same _ _ _, ?_, ?_⟩
  · intro j hj
    obtain ⟨hjn, hjsrv⟩ := (mem_clients g i j).mp hj
    have hji : j ≠ i := by
      have := (hwf j hjn).1 i hjsrv
      omega
    have hjge : 0 ≤ s.es.remServers j := by
      by_contra hlt
      have := (hcl j hjn).2.1 (by omega) i hjsrv
      omega
    have hjeq := (hcl j hjn).1 hjge
    have hretire := pendingServers_retire g s.es.remServers i j (hwf j hjn).2 hjsrv (by omega)
    rw [Function.update_noteq hji]
    omega
  · intro j hjn hjcl
    by_cases hji : j = i
    · subst hji
      rw [Function.update_same]
      refine ⟨fun h => absurd h (by decide), fun _ x hx => ?_, fun _ => ?_⟩
      · have hx2 := hretired_servers x hx
        have hxj : x ≠ j := by
          have := (hwf j hjn).1 x hx
          omega
        rw [Function.update_noteq hxj]
        exact hx2
      · right; right; right; rfl
    · have hisrv : i ∉ (nodeAt g j).servers := by
        intro hc
        exact hjcl ((mem_clients g i j).mpr ⟨hjn, hc⟩)
      rw [Function.update_noteq hji]
      obtain ⟨h1, h2, h3⟩ := hcl j hjn
      refine ⟨?_, ?_, ?_⟩
      · intro hge
        rw [pendingServers_update_notmem g s.es.remServers i (-2) j hisrv]
        exact h1 hge
      · intro hlt x hx
        have hx2 := h2 hlt x hx
        have hxi : x ≠ i := fun hc => hisrv (hc ▸ hx)
        rw [Function.update_noteq hxi]
        exact hx2
      · intro hlt
        rcases h3 hlt with hd | hc | hg
        · exact Or.inl hd
        · exact Or.inr (Or.inl hc)
        · exact Or.inr (Or.inr (Or.inl hg))

lemma finishGPUNode_preserves (g : Graph) (K : Kernel) (hwf : Wellformed g) (i : Nat)
    (hn : i < g.length) (s : HetState) (hInv : SchedInv g s)
    (hrem : s.es.remServers i = -1) : SchedInv g (finishGPUNode g K i s) := by
  apply releaseServers_preserves
  obtain ⟨hmid0, hmid1, hmid2⟩ := retire_mid g hwf i hn s hInv (Or.inr hrem)
  set s1 : HetState :=
    { s with es := { s.es with remServers := Function.update s.es.remServers i (-2) } }
    with hs1
  have hr1 : s1.es.remServers = Function.update s.es.remServers i (-2) := rfl
  apply decrementClients_inv g K hwf i (clients g i) s1
    (List.Nodup.filter _ (List.nodup_range _))
    (fun j hj => (mem_clients g i j).mp hj)
  · rw [hr1]
    exact hmid0
  · intro j hj
    rw [hr1]
    exact hmid1 j hj
  · intro j hjn hjcl
    rw [hr1]
    obtain ⟨h1, h2, h3⟩ := hmid2 j hjn hjcl
    refine ⟨h1, h2, ?_⟩
    intro hlt
    rcases h3 hlt with hd | hc | hg | hji
    · exact Or.inl hd
    · exact Or.inr (Or.inl hc)
    · exact Or.inr (Or.inr hg)
    · subst hji
      rcases (hInv.1 j hn).2.2 (by omega) with hd | hc | hg
      · exact Or.inl hd
      · exact Or.inr (Or.inl hc)
      · exact Or.inr (Or.inr hg)
  · intro j hj
    exact hInv.2 j hj

lemma computeCPUNode_frame (cudaMode : Bool) (g : Graph) (K : Kernel) (i : Nat)
    (st : EngineState) :
    (computeCPUNode cudaMode g K i st).remServers = st.remServers ∧
    (computeCPUNode cudaMode g K i st).fromDataset = st.fromDataset ∧
    (computeCPUNode cudaMode g K i st).outputSize = st.outputSize :=
  ⟨rfl, rfl, rfl⟩

lemma computeCPUNodeHet_preserves (g : Graph) (K : Kernel) (hwf : Wellformed g) (i : Nat)
    (hn : i < g.length) (s : HetState) (hInv : SchedInv g s)
    (hrem : s.es.remServers i = 0) : SchedInv g (computeCPUNodeHet g K i s) := by
  apply releaseServers_preserves
  obtain ⟨hmid0, hmid1, hmid2⟩ := retire_mid g hwf i hn s hInv (Or.inl hrem)
  set s1 : HetState :=
    { s with es := { s.es with remServers := Function.update s.es.remServers i (-2) } }
    with hs1
  set s2 : HetState :=
    (if s1.es.fromDataset i = true then s1
     else { s1 with es := computeCPUNode true g K i s1.es,
                    cpuComputed := s1.cpuComputed ++ [i] })
    with hs2
  have hr2 : s2.es.remServers = Function.update s.es.remServers i (-2) := by
    rw [hs2]
    by_cases hds : s1.es.fromDataset i = true
    · rw [if_pos hds]
    · rw [if_neg hds]
      exact (computeCPUNode_frame true g K i s1.es).1
  have hds2 : s2.es.fromDataset = s.es.fromDataset := by
    rw [hs2]
    by_cases hds : s1.es.fromDataset i = true
    · rw [if_pos hds]
    · rw [if_neg hds]
      exact (computeCPUNode_frame true g K i s1.es).2.1
  have hsz2 : s2.es.outputSize = s.es.outputSize := by
    rw [hs2]
    by_cases hds : s1.es.fromDataset i = true
    · rw [if_pos hds]
    · rw [if_neg hds]
      exact (computeCPUNode_frame true g K i s1.es).2.2
  have hgpu2 : s2.gpuAssigned = s.gpuAssigned := by
    rw [hs2]
    by_cases hds : s1.es.fromDataset i = true
    · rw [if_pos hds]
    · rw [if_neg hds]
  have hcpu2 : s.cpuComputed = s.cpuComputed ∨ True := Or.inr trivial
  have hcpu_sub : ∀ j, j ∈ s.cpuComputed → j ∈ s2.cpuComputed := by
    intro j hj
    rw [hs2]
    by_cases hds : s1.es.fromDataset i = true
    · rw [if_pos hds]; exact hj
    · rw [if_neg hds]
      exact List.mem_append_left _ hj
  have hown : s2.es.fromDataset i = true ∨ i ∈ s2.cpuComputed := by
    rw [hs2]
    by_cases hds : s1.es.fromDataset i = true
    · rw [if_pos hds]; exact Or.inl hds
    · rw [if_neg hds]
      right
      simp
  show SchedInv g (decrementClients g K (clients g i) s2)
  apply decrementClients_inv g K hwf i (clients g i) s2
    (List.Nodup.filter _ (List.nodup_range _))
    (fun j hj => (mem_clients g i j).mp hj)
  · rw [hr2]
    exact hmid0
  · intro j hj
    rw [hr2]
    exact hmid1 j hj
  · intro j hjn hjcl
    rw [hr2, hds2]
    obtain ⟨h1, h2, h3⟩ := hmid2 j hjn hjcl
    refine ⟨h1, h2, ?_⟩
    intro hlt
    rcases h3 hlt with hd | hc | hg | hji
    · exact Or.inl hd
    · exact Or.inr (Or.inl (hcpu_sub j hc))
    · rw [hgpu2]
      exact Or.inr (Or.inr hg)
    · subst hji
      rcases hown with hd | hc
      · rw [hds2] at hd
        exact Or.inl hd
      · exact Or.inr (Or.inl hc)
  · intro j hj
    rw [hgpu2] at hj
    rw [hsz2]
    exact hInv.2 j hj

lemma decrementStep_ds_sz (g : Graph) (K : Kernel) (s : HetState) (j : Nat) :
    (decrementStep g K s j).es.fromDataset = s.es.fromDataset ∧
    (decrementStep g K s j).es.outputSize = s.es.outputSize := by
  rw [decrementStep_eq]
  by_cases h : s.es.remServers j - 1 = 0 ∧ computeInGPU g s.es.outputSize j = true
  · rw [if_pos h]
    exact ⟨rfl, rfl⟩
  · rw [if_neg h]
    exact ⟨rfl, rfl⟩

lemma decrementClients_ds_sz (g : Graph) (K : Kernel) (cs : List Nat) :
    ∀ s : HetState,
      (decrementClients g K cs s).es.fromDataset = s.es.fromDataset ∧
      (decrementClients g K cs s).es.outputSize = s.es.outputSize := by
  induction cs with
  | nil => intro s; exact ⟨rfl, rfl⟩
  | cons a t ih =>
    intro s
    have hstep : decrementClients g K (a :: t) s =
        decrementClients g K t (decrementStep g K s a) := rfl
    rw [hstep]
    obtain ⟨h1, h2⟩ := ih (decrementStep g K s a)
    obtain ⟨h3, h4⟩ := decrementStep_ds_sz g K s a
    exact ⟨h1.trans h3, h2.trans h4⟩

lemma finishGPUNode_ds_sz (g : Graph) (K : Kernel) (i : Nat) (s : HetState) :
    (finishGPUNode g K i s).es.fromDataset = s.es.fromDataset ∧
    (finishGPUNode g K i s).es.outputSize = s.es.outputSize := by
  rw [finishGPUNode]
  obtain ⟨_, hf2, hf3, _, _⟩ := releaseServers_frame (nodeAt g i).servers
    (decrementClients g K (clients g i)
      { s with es := { s.es with remServers := Function.update s.es.remServers i (-2) } })
  obtain ⟨h1, h2⟩ := decrementClients_ds_sz g K (clients g i)
    { s with es := { s.es with remServers := Function.update s.es.remServers i (-2) } }
  exact ⟨hf2.trans h1, hf3.trans h2⟩

lemma computeCPUNodeHet_ds_sz (g : Graph) (K : Kernel) (i : Nat) (s : HetState) :
    (computeCPUNodeHet g K i s).es.fromDataset = s.es.fromDataset ∧
    (computeCPUNodeHet g K i s).es.outputSize = s.es.outputSize := by
  rw [computeCPUNodeHet]
  set s1 : HetState :=
    { s with es := { s.es with remServers := Function.update s.es.remServers i (-2) } }
  set s2 : HetState :=
    (if s1.es.fromDataset i = true then s1
     else { s1 with es := computeCPUNode true g K i s1.es,
                    cpuComputed := s1.cpuComputed ++ [i] })
    with hs2
  have hds2 : s2.es.fromDataset = s.es.fromDataset := by
    rw [hs2]
    by_cases hds : s1.es.fromDataset i = true
    · rw [if_pos hds]
    · rw [if_neg hds]
      exact (computeCPUNode_frame true g K i s1.es).2.1
  have hsz2 : s2.es.outputSize = s.es.outputSize := by
    rw [hs2]
    by_cases hds : s1.es.fromDataset i = true
    · rw [if_pos hds]
    · rw [if_neg hds]
      exact (computeCPUNode_frame true g K i s1.es).2.2
  obtain ⟨_, hf2, hf3, _, _⟩ := releaseServers_frame (nodeAt g i).servers
    (decrementClients g K (clients g i) s2)
  obtain ⟨h1, h2⟩ := decrementClients_ds_sz g K (clients g i) s2
  exact ⟨hf2.trans (h1.trans hds2), hf3.trans (h2.trans hsz2)⟩

lemma drainFold_preserves (g : Graph) (K : Kernel) (idle : Nat → Bool)
    (hwf : Wellformed g) :
    ∀ l : List Nat, (∀ i ∈ l, i < g.length) → ∀ s : HetState, SchedInv g s →
      SchedInv g (l.foldl (drainStep g K idle) s) ∧
      (l.foldl (drainStep g K idle) s).es.fromDataset = s.es.fromDataset ∧
      (l.foldl (drainStep g K idle) s).es.outputSize = s.es.outputSize := by
  intro l
  induction l with
  | nil => intro _ s h; exact ⟨h, rfl, rfl⟩
  | cons a t ih =>
    intro hb s h
    have han : a < g.length := hb a (List.mem_cons_self _ _)
    rw [List.foldl_cons]
    have hstep : SchedInv g (drainStep g K idle s a) ∧
        (drainStep g K idle s a).es.fromDataset = s.es.fromDataset ∧
        (drainStep g K idle s a).es.outputSize = s.es.outputSize := by
      rw [drainStep]
      by_cases hg : s.es.remServers a = -1 ∧ idle a = true
      · rw [if_pos hg]
        exact ⟨finishGPUNode_preserves g K hwf a han s h hg.1,
          finishGPUNode_ds_sz g K a s⟩
      · rw [if_neg hg]
        exact ⟨h, rfl, rfl⟩
    obtain ⟨ih1, ih2, ih3⟩ := ih (fun i hi => hb i (List.mem_cons_of_mem _ hi))
      (drainStep g K idle s a) hstep.1
    exact ⟨ih1, ih2.trans hstep.2.1, ih3.trans hstep.2.2⟩

lemma initAssignFold_preserves (g : Graph) (K : Kernel) (hwf : Wellformed g) :
    ∀ l : List Nat, (∀ i ∈ l, i < g.length) → ∀ s : HetState, SchedInv g s →
      SchedInv g (l.foldl (initAssignStep g K) s) ∧
      (l.foldl (initAssignStep g K) s).es.fromDataset = s.es.fromDataset ∧
      (l.foldl (initAssignStep g K) s).es.outputSize = s.es.outputSize := by
  intro l
  induction l with
  | nil => intro _ s h; exact ⟨h, rfl, rfl⟩
  | cons a t ih =>
    intro hb s h
    have han : a < g.length := hb a (List.mem_cons_self _ _)
    rw [List.foldl_cons]
    have hstep : SchedInv g (initAssignStep g K s a) ∧
        (initAssignStep g K s a).es.fromDataset = s.es.fromDataset ∧
        (initAssignStep g K s a).es.outputSize = s.es.outputSize := by
      rw [initAssignStep]
      by_cases hg : s.es.remServers a = 0 ∧ computeInGPU g s.es.outputSize a = true
      · rw [if_pos hg]
        exact ⟨assign_preserves g K hwf a han s h hg.1 hg.2,
          (assignToGPU_frame g K a s).1, (assignToGPU_frame g K a s).2.1⟩
      · rw [if_neg hg]
        exact ⟨h, rfl, rfl⟩
    obtain ⟨ih1, ih2, ih3⟩ := ih (fun i hi => hb i (List.mem_cons_of_mem _ hi))
      (initAssignStep g K s a) hstep.1
    exact ⟨ih1, ih2.trans hstep.2.1, ih3.trans hstep.2.2⟩

lemma hetLoop_preserves (g : Graph) (K : Kernel) (idle : Nat → Nat → Bool)
    (hwf : Wellformed g) :
    ∀ fuel iter (s : HetState), SchedInv g s →
      SchedInv g (getValHetLoop g K idle fuel iter s) ∧
      (getValHetLoop g K idle fuel iter s).es.fromDataset = s.es.fromDataset ∧
      (getValHetLoop g K idle fuel iter s).es.outputSize = s.es.outputSize := by
  intro fuel
  induction fuel with
  | zero => intro iter s h; exact ⟨h, rfl, rfl⟩
  | succ fuel ih =>
    intro iter s h
    rw [getValHetLoop]
    by_cases htop : s.es.remServers (g.length - 1) = -2
    · rw [if_pos htop]
      exact ⟨h, rfl, rfl⟩
    · rw [if_neg htop]
      obtain ⟨hd1, hd2, hd3⟩ := drainFold_preserves g K (idle iter) hwf
        (List.range g.length) (fun i hi => List.mem_range.mp hi) s h
      rcases hfind : findCPUNode g (drainFinished g K (idle iter) s).es with _ | i
      · simp only [hfind]
        obtain ⟨l1, l2, l3⟩ := ih (iter + 1) (drainFinished g K (idle iter) s) hd1
        exact ⟨l1, l2.trans hd2, l3.trans hd3⟩
      · simp only [hfind]
        have himem : i ∈ List.range g.length := List.mem_of_find?_eq_some hfind
        have hin : i < g.length := List.mem_range.mp himem
        have hpred := List.find?_some hfind
        have hrem0 : (drainFinished g K (idle iter) s).es.remServers i = 0 := by
          simp only [Bool.and_eq_true, decide_eq_true_eq] at hpred
          exact hpred.1
        have hc := computeCPUNodeHet_preserves g K hwf i hin
          (drainFinished g K (idle iter) s) hd1 hrem0
        obtain ⟨l1, l2, l3⟩ := ih (iter + 1)
          (computeCPUNodeHet g K i (drainFinished g K (idle iter) s)) hc
        obtain ⟨m1, m2⟩ := computeCPUNodeHet_ds_sz g K i (drainFinished g K (idle iter) s)
        exact ⟨l1, (l2.trans m1).trans hd2, (l3.trans m2).trans hd3⟩

lemma hetInit_inv (g : Graph) (hwf : Wellformed g) (es : EngineState) :
    SchedInv g ⟨hetInitState g es, [], []⟩ := by
  constructor
  · intro i hi
    have hremi : (hetInitState g es).remServers i = ((nodeAt g i).servers.length : Int) := by
      rw [hetInitState]
      simp [hi]
    refine ⟨?_, ?_, ?_⟩
    · intro _
      rw [hremi]
      have : pendingServers g (hetInitState g es).remServers i =
          (nodeAt g i).servers.length := by
        apply pendingServers_full
        intro x hx
        have hxn : x < g.length := by
          have := (hwf i hi).1 x hx
          omega
        rw [hetInitState]
        simp only [hxn, if_pos]
        have : (0 : Int) ≤ ((nodeAt g x).servers.length : Int) := Int.natCast_nonneg _
        omega
      rw [this]
    · intro hlt
      rw [hremi] at hlt
      have : (0 : Int) ≤ ((nodeAt g i).servers.length : Int) := Int.natCast_nonneg _
      omega
    · intro hlt
      rw [hremi] at hlt
      have : (0 : Int) ≤ ((nodeAt g i).servers.length : Int) := Int.natCast_nonneg _
      omega
  · intro j hj
    simp at hj

lemma getValHet_inv (g : Graph) (K : Kernel) (idle : Nat → Nat → Bool) (fuel : Nat)
    (es : EngineState) (hwf : Wellformed g) :
    SchedInv g (getValHeterogeneous g K idle fuel es).1 ∧
    (getValHeterogeneous g K idle fuel es).1.es.fromDataset = es.fromDataset ∧
    (getValHeterogeneous g K idle fuel es).1.es.outputSize = es.outputSize := by
  have h0 : SchedInv g ⟨hetInitState g es, [], []⟩ := hetInit_inv g hwf es
  obtain ⟨h1, h2, h3⟩ := initAssignFold_preserves g K hwf (List.range g.length)
    (fun i hi => List.mem_range.mp hi) ⟨hetInitState g es, [], []⟩ h0
  obtain ⟨l1, l2, l3⟩ := hetLoop_preserves g K idle hwf fuel 0
    (initialGPUAssign g K ⟨hetInitState g es, [], []⟩) h1
  refine ⟨l1, ?_, ?_⟩
  · show (getValHetLoop g K idle fuel 0
        (initialGPUAssign g K ⟨hetInitState g es, [], []⟩)).es.fromDataset = es.fromDataset
    rw [l2]
    rw [show (initialGPUAssign g K ⟨hetInitState g es, [], []⟩).es.fromDataset =
        (hetInitState g es).fromDataset from h2]
    rfl
  · show (getValHetLoop g K idle fuel 0
        (initialGPUAssign g K ⟨hetInitState g es, [], []⟩)).es.outputSize = es.outputSize
    rw [l3]
    rw [show (initialGPUAssign g K ⟨hetInitState g es, [], []⟩).es.outputSize =
        (hetInitState g es).outputSize from h3]
    rfl

lemma retired_of_transServer (g : Graph) (hwf : Wellformed g) (s : HetState)
    (hInv : SchedInv g s) :
    ∀ p q, IsTransServer g p q → q < g.length → s.es.remServers q = -2 →
      s.es.remServers p = -2 := by
  intro p q h
  induction h with
  | single hr =>
    rename_i b
    intro hq hret
    exact (hInv.1 b hq).2.1 (by omega) p hr
  | tail hpath hr ih =>
    rename_i b c
    intro hq hret
    have hbn : b < g.length := by
      have := (hwf c hq).1 b hr
      omega
    have hbret : s.es.remServers b = -2 := (hInv.1 c hq).2.1 (by omega) b hr
    exact ih hbn hbret

/-- C7: in device (CUDA) mode, `getValHeterogeneous` completes — its loop
exit condition `topNodeInfo.remServers == -2` is reached — exactly when every
node of the graph has reached the retired state `remServers = -2`; in
particular when the top node retires all other nodes have already retired. -/
theorem c7_het_termination (g : Graph) (K : Kernel) (idle : Nat → Nat → Bool)
    (fuel : Nat) (es : EngineState) (hwf : Wellformed g) (hne : g.length ≠ 0)
    (hspan : ∀ i, i < g.length - 1 → IsTransServer g i (g.length - 1)) :
    (getValHeterogeneous g K idle fuel es).2.2 = true ↔
      ∀ i < g.length, (getValHeterogeneous g K idle fuel es).1.es.remServers i = -2 := by
  have hInv := (getValHet_inv g K idle fuel es hwf).1
  constructor
  · intro h i hi
    have htop : (getValHeterogeneous g K idle fuel es).1.es.remServers (g.length - 1) = -2 :=
      of_decide_eq_true h
    by_cases hitop : i = g.length - 1
    · rw [hitop]
      exact htop
    · have hilt : i < g.length - 1 := by omega
      exact retired_of_transServer g hwf (getValHeterogeneous g K idle fuel es).1 hInv
        i (g.length - 1) (hspan i hilt) (by omega) htop
  · intro h
    exact decide_eq_true (h (g.length - 1) (by omega))

/-- Concrete instantiation of `c7_het_termination`: a two-node graph — a
dataset column feeding a CUDA-capable reducer — run to completion with an
always-idle stream oracle. -/
theorem c7_het_termination_witness :
    let g : Graph := [{ name := "x", servers := [], isVariable := false, isCategory := false,
                        isReducer := false, cudaCapable := false },
                      { name := "nll", servers := [0], isVariable := false, isCategory := false,
                        isReducer := true, cudaCapable := true }]
    let es : EngineState :=
      { fromDataset := fun i => decide (i = 0), isDirty := fun _ => false,
        lastSetValCount := fun _ => none, hasBuffer := fun _ => false,
        outputSize := fun i => if i = 0 then 4 else 1,
        copyAfterEvaluation := fun i => decide (i = 0),
        remServers := fun _ => 0, remClients := fun _ => 0,
        dmCPU := fun i => if i = 0 then some [1, 2, 3, 4] else none,
        dmCUDA := fun i => if i = 0 then some [1, 2, 3, 4] else none }
    Wellformed g ∧ g.length ≠ 0 ∧ (∀ i, i < g.length - 1 → IsTransServer g i (g.length - 1)) ∧
      ((getValHeterogeneous g (fun _ _ => [10]) (fun _ _ => true) 4 es).2.2 = true ↔
        ∀ i < g.length,
          (getValHeterogeneous g (fun _ _ => [10]) (fun _ _ => true) 4 es).1.es.remServers i = -2) :=
  ⟨by decide, by decide,
   fun i hi => by
     have hi2 : i < 1 := by simpa using hi
     have : i = 0 := by omega
     rw [this]
     exact Relation.TransGen.single (by decide),
   c7_het_termination _ _ _ _ _ (by decide) (by decide)
     (fun i hi => by
       have hi2 : i < 1 := by simpa using hi
       have : i = 0 := by omega
       rw [this]
       exact Relation.TransGen.single (by decide))⟩

/-- C9: in device mode, `getVal` performs no parameter-change tracking: the
initialization drops the pooled buffer of every node, and a completed evaluation
has invoked the kernel of every node not bound to the dataset (on host or on
device), regardless of the parameter counters — which the heterogeneous path
never consults (neither `processVariable` nor `lastSetValCount` appears in
it; the run takes no counter input at all). -/
theorem c9_het_always_recompute (g : Graph) (K : Kernel) (idle : Nat → Nat → Bool)
    (fuel : Nat) (es : EngineState) (hwf : Wellformed g) (hne : g.length ≠ 0)
    (hspan : ∀ i, i < g.length - 1 → IsTransServer g i (g.length - 1)) :
    (∀ i < g.length, (hetInitState g es).hasBuffer i = false) ∧
    ((getValHeterogeneous g K idle fuel es).2.2 = true →
      ∀ i < g.length, es.fromDataset i = false →
        i ∈ (getValHeterogeneous g K idle fuel es).1.cpuComputed ∨
        i ∈ (getValHeterogeneous g K idle fuel es).1.gpuAssigned) := by
  obtain ⟨hInv, hds, _⟩ := getValHet_inv g K idle fuel es hwf
  constructor
  · intro i hi
    rw [hetInitState]
    simp [hi]
  · intro hdone i hi hids
    have htop : (getValHeterogeneous g K idle fuel es).1.es.remServers (g.length - 1) = -2 :=
      of_decide_eq_true hdone
    have hret : (getValHeterogeneous g K idle fuel es).1.es.remServers i = -2 := by
      by_cases hitop : i = g.length - 1
      · rw [hitop]; exact htop
      · exact retired_of_transServer g hwf _ hInv i (g.length - 1)
          (hspan i (by omega)) (by omega) htop
    rcases (hInv.1 i hi).2.2 (by omega) with hd | hc | hg
    · exfalso
      rw [show (getValHeterogeneous g K idle fuel es).1.es.fromDataset i = es.fromDataset i
          from congrFun hds i] at hd
      rw [hids] at hd
      exact absurd hd (by simp)
    · exact Or.inl hc
    · exact Or.inr hg

/-- Concrete instantiation of `c9_het_always_recompute`: the same two-node
graph and run as the C7 witness. -/
theorem c9_het_always_recompute_witness :
    let g : Graph := [{ name := "x", servers := [], isVariable := false, isCategory := false,
                        isReducer := false, cudaCapable := false },
                      { name := "nll", servers := [0], isVariable := false, isCategory := false,
                        isReducer := true, cudaCapable := true }]
    let es : EngineState :=
      { fromDataset := fun i => decide (i = 0), isDirty := fun _ => false,
        lastSetValCount := fun _ => none, hasBuffer := fun _ => true,
        outputSize := fun i => if i = 0 then 4 else 1,
        copyAfterEvaluation := fun i => decide (i = 0),
        remServers := fun _ => 0, remClients := fun _ => 0,
        dmCPU := fun i => if i = 0 then some [1, 2, 3, 4] else none,
        dmCUDA := fun i => if i = 0 then some [1, 2, 3, 4] else none }
    Wellformed g ∧ g.length ≠ 0 ∧
      ((∀ i < g.length, (hetInitState g es).hasBuffer i = false) ∧
       ((getValHeterogeneous g (fun _ _ => [10]) (fun _ _ => true) 4 es).2.2 = true →
         ∀ i < g.length, es.fromDataset i = false →
           i ∈ (getValHeterogeneous g (fun _ _ => [10]) (fun _ _ => true) 4 es).1.cpuComputed ∨
           i ∈ (getValHeterogeneous g (fun _ _ => [10]) (fun _ _ => true) 4 es).1.gpuAssigned)) :=
  ⟨by decide, by decide,
   c9_het_always_recompute _ _ _ _ _ (by decide) (by decide)
     (fun i hi => by
       have hi2 : i < 1 := by simpa using hi
       have : i = 0 := by omega
       rw [this]
       exact Relation.TransGen.single (by decide))⟩

/-- Claim C5 as stated: in device mode every scalar node (`outputSize == 1`)
is executed inline in the host scheduling loop rather than being assigned to
the device, and a scalar node computed on host has its output span published
into the device data map so device kernels can read it. -/
def ClaimC5 : Prop :=
  (∀ (g : Graph) (K : Kernel) (idle : Nat → Nat → Bool) (fuel : Nat) (es : EngineState),
    ∀ i < g.length, es.outputSize i = 1 →
      i ∉ (getValHeterogeneous g K idle fuel es).1.gpuAssigned) ∧
  (∀ (g : Graph) (K : Kernel) (i : Nat) (st : EngineState), st.outputSize i = 1 →
    (computeCPUNode true g K i st).dmCUDA i = some (K i (inputSpans g st.dmCPU i)))

/-- C5 counterexample: a scalar reducer with CUDA capability has
`computeInGPU() == true` (`isReducerNode() || !isScalar()`), so the scheduler
assigns it to the device instead of running it in the host loop: on the
two-node graph dataset-column → CUDA reducer, the scalar top node ends up in
the GPU log. -/
theorem c5_counterexample : ¬ ClaimC5 := by
  intro h
  have := h.1
    [{ name := "x", servers := [], isVariable := false, isCategory := false,
       isReducer := false, cudaCapable := false },
     { name := "nll", servers := [0], isVariable := false, isCategory := false,
       isReducer := true, cudaCapable := true }]
    (fun _ _ => [10]) (fun _ _ => true) 4
    { fromDataset := fun i => decide (i = 0), isDirty := fun _ => false,
      lastSetValCount := fun _ => none, hasBuffer := fun _ => false,
      outputSize := fun i => if i = 0 then 4 else 1,
      copyAfterEvaluation := fun i => decide (i = 0),
      remServers := fun _ => 0, remClients := fun _ => 0,
      dmCPU := fun i => if i = 0 then some [1, 2, 3, 4] else none,
      dmCUDA := fun i => if i = 0 then some [1, 2, 3, 4] else none }
    1 (by decide) (by decide)
  exact this (by decide)

/-- C5 amended: in device mode, every scalar node that is *not* GPU-placed
(`computeInGPU() == false`; scalar reducers with CUDA capability are
GPU-placed and are assigned to the device instead) is never assigned to the
device, and on a completed evaluation every such non-dataset node was
executed inline in the host loop; `computeCPUNode` publishes a scalar span
into both the host and the device data maps so device kernels can read it. -/
theorem c5_amended (g : Graph) (K : Kernel) (idle : Nat → Nat → Bool) (fuel : Nat)
    (es : EngineState) (hwf : Wellformed g) (hne : g.length ≠ 0)
    (hspan : ∀ i, i < g.length - 1 → IsTransServer g i (g.length - 1)) :
    (∀ i, es.outputSize i = 1 → computeInGPU g es.outputSize i = false →
      i ∉ (getValHeterogeneous g K idle fuel es).1.gpuAssigned) ∧
    ((getValHeterogeneous g K idle fuel es).2.2 = true →
      ∀ i < g.length, es.outputSize i = 1 → computeInGPU g es.outputSize i = false →
        es.fromDataset i = false →
        i ∈ (getValHeterogeneous g K idle fuel es).1.cpuComputed) ∧
    (∀ (K2 : Kernel) (i : Nat) (st : EngineState), st.outputSize i = 1 →
      (computeCPUNode true g K2 i st).dmCUDA i = some (K2 i (inputSpans g st.dmCPU i)) ∧
      (computeCPUNode true g K2 i st).dmCPU i = some (K2 i (inputSpans g st.dmCPU i))) := by
  obtain ⟨hInv, hds, hsz⟩ := getValHet_inv g K idle fuel es hwf
  have hnotgpu : ∀ i, computeInGPU g es.outputSize i = false →
      i ∉ (getValHeterogeneous g K idle fuel es).1.gpuAssigned := by
    intro i hgpu hmem
    have := hInv.2 i hmem
    rw [hsz] at this
    rw [hgpu] at this
    exact absurd this (by simp)
  refine ⟨fun i _ hgpu => hnotgpu i hgpu, ?_, ?_⟩
  · intro hdone i hi _ hgpu hids
    have htop : (getValHeterogeneous g K idle fuel es).1.es.remServers (g.length - 1) = -2 :=
      of_decide_eq_true hdone
    have hret : (getValHeterogeneous g K idle fuel es).1.es.remServers i = -2 := by
      by_cases hitop : i = g.length - 1
      · rw [hitop]; exact htop
      · exact retired_of_transServer g hwf _ hInv i (g.length - 1)
          (hspan i (by omega)) (by omega) htop
    rcases (hInv.1 i hi).2.2 (by omega) with hd | hc | hg
    · exfalso
      rw [show (getValHeterogeneous g K idle fuel es).1.es.fromDataset i = es.fromDataset i
          from congrFun hds i, hids] at hd
      exact absurd hd (by simp)
    · exact hc
    · exact absurd hg (hnotgpu i hgpu)
  · intro K2 i st hsz1
    constructor
    · simp [computeCPUNode, hsz1]
    · simp [computeCPUNode, hsz1]

/-- Concrete instantiation of `c5_amended`: the two-node graph of the C5
counterexample, where the only scalar host-placed node set is empty and the
publication property holds definitionally. -/
theorem c5_amended_witness :
    let g : Graph := [{ name := "x", servers := [], isVariable := false, isCategory := false,
                        isReducer := false, cudaCapable := false },
                      { name := "nll", servers := [0], isVariable := false, isCategory := false,
                        isReducer := true, cudaCapable := true }]
    let es : EngineState :=
      { fromDataset := fun i => decide (i = 0), isDirty := fun _ => false,
        lastSetValCount := fun _ => none, hasBuffer := fun _ => false,
        outputSize := fun i => if i = 0 then 4 else 1,
        copyAfterEvaluation := fun i => decide (i = 0),
        remServers := fun _ => 0, remClients := fun _ => 0,
        dmCPU := fun i => if i = 0 then some [1, 2, 3, 4] else none,
        dmCUDA := fun i => if i = 0 then some [1, 2, 3, 4] else none }
    Wellformed g ∧ g.length ≠ 0 ∧
      ((∀ i, es.outputSize i = 1 → computeInGPU g es.outputSize i = false →
        i ∉ (getValHeterogeneous g (fun _ _ => [10]) (fun _ _ => true) 4 es).1.gpuAssigned) ∧
      ((getValHeterogeneous g (fun _ _ => [10]) (fun _ _ => true) 4 es).2.2 = true →
        ∀ i < g.length, es.outputSize i = 1 → computeInGPU g es.outputSize i = false →
          es.fromDataset i = false →
          i ∈ (getValHeterogeneous g (fun _ _ => [10]) (fun _ _ => true) 4 es).1.cpuComputed) ∧
      (∀ (K2 : Kernel) (i : Nat) (st : EngineState), st.outputSize i = 1 →
        (computeCPUNode true g K2 i st).dmCUDA i = some (K2 i (inputSpans g st.dmCPU i)) ∧
        (computeCPUNode true g K2 i st).dmCPU i = some (K2 i (inputSpans g st.dmCPU i)))) :=
  ⟨by decide, by decide,
   c5_amended _ _ _ _ _ (by decide) (by decide)
     (fun i hi => by
       have hi2 : i < 1 := by simpa using hi
       have : i = 0 := by omega
       rw [this]
       exact Relation.TransGen.single (by decide))⟩

/-- Concrete instantiation of `c4_placement_and_copy`: a two-node graph with a
non-scalar dataset column feeding a CUDA-capable reducer. -/
theorem c4_placement_and_copy_witness :
    let g : Graph := [{ name := "x", servers := [], isVariable := false, isCategory := false,
                        isReducer := false, cudaCapable := false },
                      { name := "nll", servers := [0], isVariable := false, isCategory := false,
                        isReducer := true, cudaCapable := true }]
    let st : EngineState :=
      { fromDataset := fun i => i = 0, isDirty := fun _ => false, lastSetValCount := fun _ => none,
        hasBuffer := fun _ => false, outputSize := fun i => if i = 0 then 4 else 1,
        copyAfterEvaluation := fun _ => false, remServers := fun _ => 0, remClients := fun _ => 0,
        dmCPU := fun _ => none, dmCUDA := fun _ => none }
    (0 : Nat) < g.length ∧
      ((computeInGPU g st.outputSize 0 = true ↔
        ((nodeAt g 0).isReducer = true ∨ st.outputSize 0 ≠ 1) ∧ (nodeAt g 0).cudaCapable = true) ∧
      ((markGPUNodes g st).copyAfterEvaluation 0 = true ↔
        st.outputSize 0 ≠ 1 ∧
          ∃ j ∈ clients g 0, computeInGPU g st.outputSize j ≠ computeInGPU g st.outputSize 0)) :=
  ⟨by decide, c4_placement_and_copy _ _ 0 (by decide)⟩

end RooFit
